import Mathlib

/-!
Verification development for the Energy_Visualizer_influxdb backend.

The repository contains three near-duplicate Express backends:
- variant V1 (`src/unnamed/part_000`): InfluxDB backend with delimiter-stripping
  MAC normalization, a rich meters-mapping cache, and row-level delta aggregation;
- variant ES (`src/unnamed/part_001`, first file): Elasticsearch backend whose
  MAC normalization is a bare `toLowerCase`, aggregating first/last hits per MAC;
- variant V2 (`src/unnamed/part_001`, second file): InfluxDB backend sharing the
  bare `toLowerCase` normalizer and the row-level delta aggregation.

Times are modelled as integer epoch milliseconds, energy values as rationals.
JS `null`/`undefined` string inputs are modelled as `Option String`; a thrown
`TypeError` is modelled as `Except.error`.
-/

namespace EV

/-! ## MAC address normalization -/

/-- ASCII lowercasing of one character, as JS `String.prototype.toLowerCase`
acts on the characters appearing in MAC addresses. -/
def jsToLowerChar (c : Char) : Char :=
  if 65 ≤ c.toNat ∧ c.toNat ≤ 90 then Char.ofNat (c.toNat + 32) else c

/-- JS `String.prototype.toLowerCase` (ASCII fragment). -/
def jsToLower (s : String) : String :=
  String.mk (s.toList.map jsToLowerChar)

/-- Characters removed by V1 `mac.replace(/[:\s-]/g, "")`: colon, hyphen and
whitespace (ASCII space, tab, LF, CR). -/
def isMacDelim (c : Char) : Bool :=
  c = ':' || c = '-' || c = ' ' || c = '\t' || c = '\n' || c = '\r'

/-- The `replace(/[:\s-]/g, "")` step of V1 normalization. -/
def stripMacDelims (s : String) : String :=
  String.mk (s.toList.filter (fun c => !(isMacDelim c)))

/-- V1 (`part_000` lines 72-76):
`if (!mac) return null; return mac.replace(/[:\s-]/g, "").toLowerCase();`.
`none` models JS `null`/`undefined`; the empty string is falsy, so it also
returns `null`. -/
def normalizeMacAddress (mac : Option String) : Option String :=
  match mac with
  | none => none
  | some s => if s = "" then none else some (jsToLower (stripMacDelims s))

/-- The JS error thrown when `toLowerCase` is invoked on `null`. -/
def jsNullLowerError : String :=
  "TypeError: Cannot read properties of null (reading toLowerCase)"

/-- ES and V2 (`part_001` lines 68 and 540):
`const normalizeMacAddress = (mac) => mac.toLowerCase();`.
Calling `toLowerCase` on `null`/`undefined` throws, modelled as `Except.error`. -/
def normalizeMacAddressLC (mac : Option String) : Except String String :=
  match mac with
  | none => Except.error jsNullLowerError
  | some s => Except.ok (jsToLower s)

/-! ## Configuration constants (`part_000` lines 16-17, `part_001` lines 16-17) -/

/-- The configured supply meter MAC, as written in the source (colon form). -/
def SUPPLY_MAC_NORMALIZED : String := "08:f9:e0:73:64:db"

/-- V1 computes `normalizeMacAddress(SUPPLY_MAC_NORMALIZED)` before comparing
(`part_000` line 279); this is that value for the nonempty constant. -/
def normalizedSupplyMac : String := jsToLower (stripMacDelims SUPPLY_MAC_NORMALIZED)

/-! ## Raw readings and the V1 delta aggregation (`part_000` lines 237-328) -/

/-- One raw row returned by the storage query: the `mac_address` tag, the
`energy` field value, and `_time` in epoch milliseconds. -/
structure Reading where
  mac : String
  value : ℚ
  time : ℤ
deriving DecidableEq, Repr

/-- Ordering relation used by `readings.sort((a, b) => new Date(a._time) - new Date(b._time))`. -/
def timeLE (a b : Reading) : Prop := a.time ≤ b.time

instance : DecidableRel timeLE :=
  fun a b => inferInstanceAs (Decidable (a.time ≤ b.time))

instance : IsTotal Reading timeLE := ⟨fun a b => Int.le_total a.time b.time⟩

instance : IsTrans Reading timeLE := ⟨fun _ _ _ h1 h2 => le_trans h1 h2⟩

/-- Strict version of `timeLE`, used to show sorted lists are unique when
timestamps are pairwise distinct. -/
def timeLT (a b : Reading) : Prop := a.time < b.time

instance : IsAntisymm Reading timeLT :=
  ⟨fun _ _ h1 h2 => absurd (lt_trans h1 h2) (lt_irrefl _)⟩

/-- JS `Array.prototype.sort` is stable; a stable sort by `_time` ascending. -/
def sortByTime (rs : List Reading) : List Reading := rs.insertionSort timeLE

/-- The key a row is grouped under (`part_000` lines 245-253): the normalized
MAC, skipping rows where `normalizeMacAddress` gives a falsy value. -/
def rowKey (r : Reading) : Option String :=
  match normalizeMacAddress (some r.mac) with
  | none => none
  | some nm => if nm = "" then none else some nm

/-- JS object property read (`obj[k]`). The building functions below never
produce duplicate keys, so the first binding is the binding. -/
def objGet {α : Type} (m : List (String × α)) (k : String) : Option α :=
  match m with
  | [] => none
  | (k0, v) :: rest => if k0 = k then some v else objGet rest k

/-- JS object property write `obj[k] = v`: overwrites an existing binding in
place, otherwise appends (JS objects keep string-key insertion order). -/
def objSet {α : Type} (m : List (String × α)) (k : String) (v : α) : List (String × α) :=
  match m with
  | [] => [(k, v)]
  | (k0, v0) :: rest => if k0 = k then (k0, v) :: rest else (k0, v0) :: objSet rest k v

/-- JS `obj[k].push(x)` with on-demand array creation, as used to build the
per-MAC groups and the room reverse index. -/
def objPush {α : Type} (m : List (String × List α)) (k : String) (x : α) :
    List (String × List α) :=
  match m with
  | [] => [(k, [x])]
  | (k0, xs) :: rest =>
    if k0 = k then (k0, xs ++ [x]) :: rest else (k0, xs) :: objPush rest k x

/-- JS `Object.keys`, in insertion order. -/
def objKeys {α : Type} (m : List (String × α)) : List String := m.map Prod.fst

/-- Grouping of rows by normalized MAC (`part_000` lines 244-253). -/
def groupByMac (data : List Reading) : List (String × List Reading) :=
  data.foldl
    (fun gs r =>
      match rowKey r with
      | none => gs
      | some k => objPush gs k r)
    []

/-- The per-group delta (`part_000` lines 271-276): sort by time, then
last value minus first value. Empty input (never produced) gives 0. -/
def groupDelta (readings : List Reading) : ℚ :=
  match sortByTime readings with
  | [] => 0
  | f :: rest => (rest.getLastD f).value - f.value

/-- Classification of one group delta (`part_000` lines 278-318), returned as
(contribution to `consumptionEnergy`, contribution to `supplyEnergy`):
supply meter first; then the requested-room branch (JS truthy `room`); else the
all-rooms branch counting only MACs present in the meters mapping. -/
def macClassify (normalizedMac : String) (energyDelta : ℚ)
    (macToRoomMap : List (String × String)) (room : Option String) : ℚ × ℚ :=
  if normalizedMac = normalizedSupplyMac then (0, energyDelta)
  else
    match room with
    | some r =>
      if r = "" then
        if (objGet macToRoomMap normalizedMac).isSome then (energyDelta, 0) else (0, 0)
      else
        match objGet macToRoomMap normalizedMac with
        | some macRoom => if macRoom ≠ "" ∧ macRoom = r then (energyDelta, 0) else (0, 0)
        | none => (0, 0)
    | none =>
      if (objGet macToRoomMap normalizedMac).isSome then (energyDelta, 0) else (0, 0)

/-- Contribution of one MAC group (`part_000` lines 261-319): fewer than 2
readings contribute nothing (logged, not an error); otherwise the delta is
classified. -/
def groupContrib (normalizedMac : String) (readings : List Reading)
    (macToRoomMap : List (String × String)) (room : Option String) : ℚ × ℚ :=
  if readings.length < 2 then (0, 0)
  else macClassify normalizedMac (groupDelta readings) macToRoomMap room

/-- Running total of `consumptionEnergy` over all groups. -/
def consumptionSum (data : List Reading) (macToRoomMap : List (String × String))
    (room : Option String) : ℚ :=
  ((groupByMac data).map (fun g => (groupContrib g.1 g.2 macToRoomMap room).1)).sum

/-- Running total of `supplyEnergy` over all groups. -/
def supplySum (data : List Reading) (macToRoomMap : List (String × String))
    (room : Option String) : ℚ :=
  ((groupByMac data).map (fun g => (groupContrib g.1 g.2 macToRoomMap room).2)).sum

/-- JS `parseFloat(x.toFixed(3))`: round to 3 decimal places. -/
def round3 (q : ℚ) : ℚ := ((round (q * 1000) : ℤ) : ℚ) / 1000

/-- V1 `calculateEnergyFromInfluxData` (`part_000` lines 237-328), returning
`{consumption, supply}` with each total independently rounded to 3 decimals
and clamped at 0 (lines 321-324). -/
def calculateEnergyFromInfluxData (data : List Reading)
    (macToRoomMap : List (String × String)) (room : Option String) : ℚ × ℚ :=
  (max 0 (round3 (consumptionSum data macToRoomMap room)),
   max 0 (round3 (supplySum data macToRoomMap room)))

/-! ## V2 variant: row-level delta aggregation (`part_001` lines 646-693)

The second InfluxDB backend groups rows by the raw `mac_address` tag — no
normalization and no skipped rows — and only lowercases the group key at
classification time. -/

/-- V2 grouping (`part_001` lines 651-657): `macGroups[row.mac_address].push(row)`
keyed by the raw tag value. -/
def groupByMacV2 (data : List Reading) : List (String × List Reading) :=
  data.foldl (fun gs r => objPush gs r.mac r) []

/-- Classification of one group delta in V2 (`part_001` lines 669-687):
the key is lowercased, compared against the colon-form supply constant, and
looked up as-is in the mapping; the room branch has no truthiness check on
the mapped room (unlike V1). -/
def macClassifyV2 (macAddress : String) (energyDelta : ℚ)
    (macToRoomMap : List (String × String)) (room : Option String) : ℚ × ℚ :=
  let normalizedMac := jsToLower macAddress
  if normalizedMac = SUPPLY_MAC_NORMALIZED then (0, energyDelta)
  else
    match room with
    | some r =>
      if r = "" then
        if (objGet macToRoomMap normalizedMac).isSome then (energyDelta, 0) else (0, 0)
      else
        match objGet macToRoomMap normalizedMac with
        | some macRoom => if macRoom = r then (energyDelta, 0) else (0, 0)
        | none => (0, 0)
    | none =>
      if (objGet macToRoomMap normalizedMac).isSome then (energyDelta, 0) else (0, 0)

/-- Contribution of one raw-MAC group in V2 (`part_001` lines 660-687). -/
def groupContribV2 (macAddress : String) (readings : List Reading)
    (macToRoomMap : List (String × String)) (room : Option String) : ℚ × ℚ :=
  if readings.length < 2 then (0, 0)
  else macClassifyV2 macAddress (groupDelta readings) macToRoomMap room

/-- Running total of `consumptionEnergy` over all V2 groups. -/
def consumptionSumV2 (data : List Reading) (macToRoomMap : List (String × String))
    (room : Option String) : ℚ :=
  ((groupByMacV2 data).map (fun g => (groupContribV2 g.1 g.2 macToRoomMap room).1)).sum

/-- Running total of `supplyEnergy` over all V2 groups. -/
def supplySumV2 (data : List Reading) (macToRoomMap : List (String × String))
    (room : Option String) : ℚ :=
  ((groupByMacV2 data).map (fun g => (groupContribV2 g.1 g.2 macToRoomMap room).2)).sum

/-- V2 `calculateEnergyFromInfluxData` (`part_001` lines 646-693). -/
def calculateEnergyFromInfluxDataV2 (data : List Reading)
    (macToRoomMap : List (String × String)) (room : Option String) : ℚ × ℚ :=
  (max 0 (round3 (consumptionSumV2 data macToRoomMap room)),
   max 0 (round3 (supplySumV2 data macToRoomMap room)))

/-! ## ES variant: first/last aggregation buckets (`part_001` lines 148-219) -/

/-- One `by_mac` terms bucket from the Elasticsearch aggregation: the raw
`mac_address.keyword` key and the energies of the first and last hits by
`log_datetime` (each `none` when the bucket has no hits). -/
structure MacBucket where
  key : String
  first_energy : Option ℚ
  last_energy : Option ℚ
deriving DecidableEq, Repr

/-- Contribution of one ES bucket (`part_001` lines 186-213), returned as
(contribution to `consumptionEnergy`, contribution to `supplyEnergy`).
The supply comparison is against the colon-form constant itself. -/
def bucketContrib (b : MacBucket) (macToRoomMap : List (String × String))
    (room : Option String) : ℚ × ℚ :=
  match b.first_energy, b.last_energy with
  | some firstE, some lastE =>
    let energyDelta := lastE - firstE
    let normalizedMac := jsToLower b.key
    if normalizedMac = SUPPLY_MAC_NORMALIZED then (0, energyDelta)
    else
      match room with
      | some r =>
        if r = "" then
          if (objGet macToRoomMap normalizedMac).isSome then (energyDelta, 0) else (0, 0)
        else
          match objGet macToRoomMap normalizedMac with
          | some macRoom => if macRoom = r then (energyDelta, 0) else (0, 0)
          | none => (0, 0)
      | none =>
        if (objGet macToRoomMap normalizedMac).isSome then (energyDelta, 0) else (0, 0)
  | _, _ => (0, 0)

/-- Running `consumptionEnergy` total of `calculateEnergyFromBuckets`. -/
def consumptionSumES (buckets : List MacBucket) (macToRoomMap : List (String × String))
    (room : Option String) : ℚ :=
  (buckets.map (fun b => (bucketContrib b macToRoomMap room).1)).sum

/-- Running `supplyEnergy` total of `calculateEnergyFromBuckets`. -/
def supplySumES (buckets : List MacBucket) (macToRoomMap : List (String × String))
    (room : Option String) : ℚ :=
  (buckets.map (fun b => (bucketContrib b macToRoomMap room).2)).sum

/-- ES `calculateEnergyFromBuckets` (`part_001` lines 182-219). -/
def calculateEnergyFromBuckets (buckets : List MacBucket)
    (macToRoomMap : List (String × String)) (room : Option String) : ℚ × ℚ :=
  (max 0 (round3 (consumptionSumES buckets macToRoomMap room)),
   max 0 (round3 (supplySumES buckets macToRoomMap room)))

/-! ## Calendar model

The configured timezone is `Asia/Shanghai`, a fixed UTC+8 offset for all
modern dates, so local civil time is modelled as
`{year, month (0-11 as in dayjs), day (1-31), millisecond-of-day}` and UTC
instants as epoch milliseconds. -/

def MS_PER_HOUR : ℤ := 3600000

def MS_PER_DAY : ℤ := 86400000

/-- UTC+8 in milliseconds. -/
def TZ_OFFSET_MS : ℤ := 28800000

/-- A local (UTC+8) civil date-time; `month` is 0-based as in dayjs. -/
structure LDT where
  year : ℤ
  month : ℕ
  day : ℕ
  msOfDay : ℤ
deriving DecidableEq, Repr

/-- Gregorian leap year rule. -/
def isLeapYear (y : ℤ) : Bool := (y % 4 = 0 && y % 100 ≠ 0) || y % 400 = 0

/-- Days in a (0-based) month of a year. Months 12 and above do not arise for
valid dates; they default to 31. -/
def daysInMonth (y : ℤ) (m : ℕ) : ℕ :=
  match m with
  | 0 => 31
  | 1 => if isLeapYear y then 29 else 28
  | 2 => 31
  | 3 => 30
  | 4 => 31
  | 5 => 30
  | 6 => 31
  | 7 => 31
  | 8 => 30
  | 9 => 31
  | 10 => 30
  | _ => 31

/-- A structurally valid local date-time. -/
def ValidDate (a : LDT) : Prop :=
  a.month ≤ 11 ∧ 1 ≤ a.day ∧ a.day ≤ daysInMonth a.year a.month ∧
    0 ≤ a.msOfDay ∧ a.msOfDay < MS_PER_DAY

instance (a : LDT) : Decidable (ValidDate a) := by
  unfold ValidDate; infer_instance

/-- dayjs `startOf("day")`. -/
def startOfDay (a : LDT) : LDT := ⟨a.year, a.month, a.day, 0⟩

/-- dayjs `endOf("day")` (23:59:59.999 local). -/
def endOfDay (a : LDT) : LDT := ⟨a.year, a.month, a.day, MS_PER_DAY - 1⟩

/-- dayjs `startOf("month")`. -/
def startOfMonth (a : LDT) : LDT := ⟨a.year, a.month, 1, 0⟩

/-- dayjs `endOf("month")`. -/
def endOfMonth (a : LDT) : LDT :=
  ⟨a.year, a.month, daysInMonth a.year a.month, MS_PER_DAY - 1⟩

/-- dayjs `startOf("year")`. -/
def startOfYear (a : LDT) : LDT := ⟨a.year, 0, 1, 0⟩

/-- dayjs `endOf("year")` (Dec 31, 23:59:59.999 local). -/
def endOfYear (a : LDT) : LDT := ⟨a.year, 11, 31, MS_PER_DAY - 1⟩

/-- Advance one calendar day (fixed-offset zone: exactly 24 hours). -/
def addDay (a : LDT) : LDT :=
  if a.day + 1 ≤ daysInMonth a.year a.month then ⟨a.year, a.month, a.day + 1, a.msOfDay⟩
  else if a.month + 1 ≤ 11 then ⟨a.year, a.month + 1, 1, a.msOfDay⟩
  else ⟨a.year + 1, 0, 1, a.msOfDay⟩

/-- Clamp the day-of-month into the month, as dayjs does after month/year
arithmetic (e.g. Jan 31 plus one month is Feb 28/29). -/
def clampDay (a : LDT) : LDT :=
  ⟨a.year, a.month, min a.day (daysInMonth a.year a.month), a.msOfDay⟩

/-- dayjs `add(1, unit)` for the four units used by `getTimePeriods`. -/
def addUnit (u : String) (a : LDT) : LDT :=
  if u = "hour" then
    if a.msOfDay + MS_PER_HOUR < MS_PER_DAY then
      ⟨a.year, a.month, a.day, a.msOfDay + MS_PER_HOUR⟩
    else
      let b := addDay a
      ⟨b.year, b.month, b.day, a.msOfDay + MS_PER_HOUR - MS_PER_DAY⟩
  else if u = "day" then addDay a
  else if u = "month" then
    if a.month + 1 ≤ 11 then clampDay ⟨a.year, a.month + 1, a.day, a.msOfDay⟩
    else clampDay ⟨a.year + 1, 0, a.day, a.msOfDay⟩
  else if u = "year" then clampDay ⟨a.year + 1, a.month, a.day, a.msOfDay⟩
  else a

/-- dayjs `startOf(unit)`. -/
def truncUnit (u : String) (a : LDT) : LDT :=
  if u = "hour" then ⟨a.year, a.month, a.day, MS_PER_HOUR * (a.msOfDay / MS_PER_HOUR)⟩
  else if u = "day" then startOfDay a
  else if u = "month" then startOfMonth a
  else if u = "year" then startOfYear a
  else a

/-- dayjs `endOf(unit)`. -/
def endOfUnitF (u : String) (a : LDT) : LDT :=
  if u = "hour" then
    ⟨a.year, a.month, a.day, MS_PER_HOUR * (a.msOfDay / MS_PER_HOUR) + MS_PER_HOUR - 1⟩
  else if u = "day" then endOfDay a
  else if u = "month" then endOfMonth a
  else if u = "year" then endOfYear a
  else a

/-- dayjs `isBefore`: chronological (lexicographic) comparison. -/
def ltLDT (a b : LDT) : Bool :=
  if a.year ≠ b.year then decide (a.year < b.year)
  else if a.month ≠ b.month then decide (a.month < b.month)
  else if a.day ≠ b.day then decide (a.day < b.day)
  else decide (a.msOfDay < b.msOfDay)

/-- Same calendar date. -/
def sameDate (a b : LDT) : Bool :=
  a.year == b.year && a.month == b.month && a.day == b.day

/-- dayjs `isSame(b, unit)`: equality after truncation to the unit. -/
def sameUnit (u : String) (a b : LDT) : Bool :=
  if u = "hour" then sameDate a b && (a.msOfDay / MS_PER_HOUR == b.msOfDay / MS_PER_HOUR)
  else if u = "day" then sameDate a b
  else if u = "month" then a.year == b.year && a.month == b.month
  else if u = "year" then a.year == b.year
  else false

/-- Days from the Unix epoch to the given proleptic Gregorian civil date,
with `m` 1-based (Howard Hinnant's `days_from_civil`). -/
def daysFromCivil (y m d : ℤ) : ℤ :=
  let y2 := y - (if m ≤ 2 then 1 else 0)
  let era := Int.fdiv y2 400
  let yoe := y2 - era * 400
  let mp := (m + 9) % 12
  let doy := (153 * mp + 2) / 5 + d - 1
  let doe := yoe * 365 + yoe / 4 - yoe / 100 + doy
  era * 146097 + doe - 719468

/-- UTC epoch milliseconds of a local UTC+8 civil date-time
(dayjs `.utc().toISOString()`, modelled as the instant itself). -/
def toUtcMs (a : LDT) : ℤ :=
  daysFromCivil a.year ((a.month : ℤ) + 1) (a.day : ℤ) * MS_PER_DAY + a.msOfDay - TZ_OFFSET_MS

/-- The dayjs ordinal the source stores in the `period` field
(`getValue` of each config): hour-of-day, day-of-month, 0-based month, or year. -/
def getValue (u : String) (a : LDT) : ℤ :=
  if u = "hour" then a.msOfDay / MS_PER_HOUR
  else if u = "day" then (a.day : ℤ)
  else if u = "month" then (a.month : ℤ)
  else if u = "year" then a.year
  else 0

/-- The loop iterate for the hour granularity: hour `k` of the day of `D`. -/
def hourAt (D : LDT) (k : ℕ) : LDT :=
  ⟨D.year, D.month, D.day, (k : ℤ) * MS_PER_HOUR⟩

/-- One emitted bucket (`part_000` lines 378-385): the local time, the UTC
query bounds in epoch milliseconds, and the `period` sort key. The display
label (`current.format(...)`) is presentation-only and not modelled. -/
structure CalPeriod where
  localTime : LDT
  utcStart : ℤ
  utcEnd : ℤ
  period : ℤ
deriving DecidableEq, Repr

/-- Construction of one bucket at `current`. -/
def mkPeriod (u : String) (current : LDT) : CalPeriod :=
  ⟨current, toUtcMs (truncUnit u current), toUtcMs (endOfUnitF u current), getValue u current⟩

/-- The `while (current.isBefore(end) || current.isSame(end, unit))` loop of
`getTimePeriods` (`part_000` lines 369-389). `fuel` bounds the iteration count;
`LOOP_FUEL` below exceeds every span the generator is used on. -/
def periodLoop (u : String) (endT : LDT) : ℕ → LDT → List CalPeriod
  | 0, _ => []
  | fuel + 1, current =>
    if ltLDT current endT || sameUnit u current endT then
      mkPeriod u current :: periodLoop u endT fuel (addUnit u current)
    else []

/-- One entry of the `configs` table of `getTimePeriods`: the bucket unit and
the span bounds (`endT` models the JS field named `end`). -/
structure UnitConfig where
  unit : String
  start : LDT
  endT : LDT

/-- The `configs[period]` lookup of `getTimePeriods` (`part_000` lines 335-364). -/
def getTimePeriodsConfig (localInputDate : LDT) (period : String) : Option UnitConfig :=
  if period = "hour" then
    some ⟨"hour", startOfDay localInputDate, endOfDay localInputDate⟩
  else if period = "day" then
    some ⟨"day", startOfMonth localInputDate, endOfMonth localInputDate⟩
  else if period = "month" then
    some ⟨"month", startOfYear localInputDate, endOfYear localInputDate⟩
  else if period = "year" then
    some ⟨"year", ⟨2023, 0, 1, 0⟩, endOfYear localInputDate⟩
  else none

def LOOP_FUEL : ℕ := 1000000

/-- `getTimePeriods` (`part_000` lines 331-391): `if (!config) return periods;`
yields the empty list for unknown granularities. -/
def getTimePeriods (period : String) (localInputDate : LDT) : List CalPeriod :=
  match getTimePeriodsConfig localInputDate period with
  | none => []
  | some cfg => periodLoop cfg.unit cfg.endT LOOP_FUEL cfg.start

/-- A UTC query range (`{start, stop}` ISO instants, modelled as epoch ms). -/
structure DateRange where
  start : ℤ
  stop : ℤ
deriving DecidableEq, Repr

/-- Epoch milliseconds of the hardcoded `"2023-01-01T00:00:00.000Z"` data
floor used by the `year` range. -/
def YEAR_RANGE_FLOOR_MS : ℤ := daysFromCivil 2023 1 1 * MS_PER_DAY

/-- `buildDateRangeQuery` (`part_000` lines 179-207): note the final
`ranges[period] || ranges.hour`, a silent fallback to the hour range. -/
def buildDateRangeQuery (period : String) (localDate : LDT) : DateRange :=
  if period = "hour" then ⟨toUtcMs (startOfDay localDate), toUtcMs (endOfDay localDate)⟩
  else if period = "day" then ⟨toUtcMs (startOfMonth localDate), toUtcMs (endOfMonth localDate)⟩
  else if period = "month" then ⟨toUtcMs (startOfYear localDate), toUtcMs (endOfYear localDate)⟩
  else if period = "year" then ⟨YEAR_RANGE_FLOOR_MS, toUtcMs (endOfYear localDate)⟩
  else ⟨toUtcMs (startOfDay localDate), toUtcMs (endOfDay localDate)⟩

/-! ## Device mapping cache (`part_000` lines 84-176, `part_001` lines 70-111) -/

/-- One row of the meters mapping query: the `meter_mac` tag and the
(stringified) `room_id` value; `none` models a missing/undefined field. -/
structure MeterRow where
  meter_mac : Option String
  room_id : Option String
deriving DecidableEq, Repr

/-- The V1 mapping snapshot: forward map, reverse index (room to list of
`{normalized, original}`), and the original display formats. -/
structure MappingData where
  macToRoomMap : List (String × String)
  roomToMacsMap : List (String × List (String × String))
  originalMacFormats : List (String × String)
deriving DecidableEq, Repr

def emptyMappingData : MappingData := ⟨[], [], []⟩

/-- The `rows.forEach` body of V1 `getMetersMapping` (`part_000` lines 119-139):
rows with a truthy `meter_mac` and a defined `room_id` are normalized and,
when the normalized MAC is truthy, inserted into all three maps. -/
def buildMappingData (rows : List MeterRow) : MappingData :=
  rows.foldl
    (fun md row =>
      match row.meter_mac, row.room_id with
      | some originalMac, some roomId =>
        if originalMac = "" then md
        else
          match normalizeMacAddress (some originalMac) with
          | some normalizedMac =>
            if normalizedMac = "" then md
            else
              ⟨objSet md.macToRoomMap normalizedMac roomId,
               objPush md.roomToMacsMap roomId (normalizedMac, originalMac),
               objSet md.originalMacFormats normalizedMac originalMac⟩
          | none => md
      | _, _ => md)
    emptyMappingData

/-- `CACHE_DURATION = 5 * 60 * 1000`. -/
def CACHE_DURATION : ℤ := 300000

/-- The module-level cache variables `metersCache` and `cacheTimestamp`. -/
structure CacheState where
  metersCache : Option MappingData
  cacheTimestamp : Option ℤ
deriving DecidableEq, Repr

/-- The guard `metersCache && cacheTimestamp && now - cacheTimestamp < CACHE_DURATION`
(a numeric 0 timestamp is falsy in JS). -/
def cacheValid (st : CacheState) (now : ℤ) : Bool :=
  match st.metersCache, st.cacheTimestamp with
  | some _, some ts => ts ≠ 0 && now - ts < CACHE_DURATION
  | _, _ => false

/-- V1 `getMetersMapping` (`part_000` lines 89-176). The storage call is
injected as an `Except` value; the `try/catch` turns a storage error into the
previous cache contents (or an empty mapping), so the result is always `ok`.
Returns the mapping handed to the caller and the updated cache state. -/
def getMetersMapping (st : CacheState) (now : ℤ)
    (storage : Except String (List MeterRow)) :
    Except String (MappingData × CacheState) :=
  if cacheValid st now then
    Except.ok (st.metersCache.getD emptyMappingData, st)
  else
    match storage with
    | Except.ok rows =>
      let mappingData := buildMappingData rows
      Except.ok (mappingData, ⟨some mappingData, some now⟩)
    | Except.error _ =>
      Except.ok (st.metersCache.getD emptyMappingData, st)

/-- The ES/V2 cache holds only the forward `macToRoomMap` object. -/
structure CacheStateES where
  metersCache : Option (List (String × String))
  cacheTimestamp : Option ℤ
deriving DecidableEq, Repr

def cacheValidES (st : CacheStateES) (now : ℤ) : Bool :=
  match st.metersCache, st.cacheTimestamp with
  | some _, some ts => ts ≠ 0 && now - ts < CACHE_DURATION
  | _, _ => false

/-- The hit-processing loop of ES `getMetersMapping` (`part_001` lines 94-100):
rows with truthy `meter_mac` and truthy `room_id` are keyed by `toLowerCase`. -/
def buildMacToRoomMapES (rows : List MeterRow) : List (String × String) :=
  rows.foldl
    (fun m row =>
      match row.meter_mac, row.room_id with
      | some meterMac, some roomId =>
        if meterMac = "" || roomId = "" then m
        else objSet m (jsToLower meterMac) roomId
      | _, _ => m)
    []

/-- ES/V2 `getMetersMapping` (`part_001` lines 75-111 and 547-585):
`return metersCache || {};` on failure. -/
def getMetersMappingES (st : CacheStateES) (now : ℤ)
    (storage : Except String (List MeterRow)) :
    Except String (List (String × String) × CacheStateES) :=
  if cacheValidES st now then
    Except.ok (st.metersCache.getD [], st)
  else
    match storage with
    | Except.ok rows =>
      let macToRoomMap := buildMacToRoomMapES rows
      Except.ok (macToRoomMap, ⟨some macToRoomMap, some now⟩)
    | Except.error _ =>
      Except.ok (st.metersCache.getD [], st)

/-! ## The `/api/data` handler up to the query stage
(`part_000` lines 542-610, `part_001` lines 385-427 and 850-892) -/

/-- The handler outcome before any storage query for readings is issued:
a 400 validation error, the early empty-data JSON response, or proceeding to
the query stage with the MAC filter it will use. -/
inductive HandlerResponse
  | badRequest (error : String)
  | okEmpty (message : String) (totalRecords : Option ℕ) (availableRooms : Option (List String))
  | okProceed (macFilter : List String)
deriving DecidableEq, Repr

def VALID_PERIODS : List String := ["hour", "day", "month", "year"]

/-- V1 `/api/data` up to the room filter (`part_000` lines 552-600):
period and date validation, then the room branch, which answers an unmapped
room with an empty-data payload carrying a message, `totalRecords: 0` and
`availableRooms`. A present room filter proceeds with the original
(display-form) MACs of the room. -/
def handleDataV1 (period : String) (dateValid : Bool) (mappingData : MappingData)
    (room : Option String) : HandlerResponse :=
  if ¬ period ∈ VALID_PERIODS then
    HandlerResponse.badRequest "Invalid period. Use: hour, day, month, or year"
  else if !dateValid then
    HandlerResponse.badRequest "Invalid date format. Use YYYY-MM-DD."
  else
    match room with
    | some r =>
      if r = "" then HandlerResponse.okProceed []
      else
        let macsForRoom := (objGet mappingData.roomToMacsMap r).getD []
        if macsForRoom.length > 0 then
          HandlerResponse.okProceed (macsForRoom.map Prod.snd)
        else
          HandlerResponse.okEmpty
            ("No meters found for room " ++ r ++ ". Available rooms: " ++
              String.intercalate ", " (objKeys mappingData.roomToMacsMap))
            (some 0) (some (objKeys mappingData.roomToMacsMap))
    | none => HandlerResponse.okProceed []

/-- ES/V2 `/api/data` up to the room filter (`part_001` lines 396-427 and
861-892): the unmapped-room response is `{data: [], message: "..."}` with no
`meta`, no record count and no room list. -/
def handleDataES (period : String) (dateValid : Bool)
    (macToRoomMap : List (String × String)) (room : Option String) : HandlerResponse :=
  if ¬ period ∈ VALID_PERIODS then
    HandlerResponse.badRequest "Invalid period. Use: hour, day, month, or year"
  else if !dateValid then
    HandlerResponse.badRequest "Invalid date format. Use YYYY-MM-DD."
  else
    match room with
    | some r =>
      if r = "" then HandlerResponse.okProceed []
      else
        let macsForRoom := (macToRoomMap.filter (fun kv => kv.2 = r)).map Prod.fst
        if macsForRoom.length > 0 then
          HandlerResponse.okProceed macsForRoom
        else
          HandlerResponse.okEmpty "No meters found for the selected room." none none
    | none => HandlerResponse.okProceed []

/-! ## Theorems -/

/-- Characters built from a valid scalar value have that value. -/
theorem charToNat_ofNat {n : ℕ} (h : n.isValidChar) : (Char.ofNat n).toNat = n := by
  unfold Char.ofNat
  rw [dif_pos h]
  rfl

theorem jsToLowerChar_idem (c : Char) : jsToLowerChar (jsToLowerChar c) = jsToLowerChar c := by
  unfold jsToLowerChar
  by_cases h : 65 ≤ c.toNat ∧ c.toNat ≤ 90
  · rw [if_pos h]
    have hv : (c.toNat + 32).isValidChar := Or.inl (by omega)
    rw [charToNat_ofNat hv, if_neg (by omega)]
  · rw [if_neg h, if_neg h]

theorem jsToLower_idem (s : String) : jsToLower (jsToLower s) = jsToLower s := by
  show String.mk ((s.toList.map jsToLowerChar).map jsToLowerChar)
      = String.mk (s.toList.map jsToLowerChar)
  rw [List.map_map]
  exact congrArg String.mk (List.map_congr_left (fun c _ => jsToLowerChar_idem c))

/-- Lowercase ASCII letters are not MAC delimiters. -/
theorem isMacDelim_ofNat {n : ℕ} (h1 : 97 ≤ n) (h2 : n ≤ 122) :
    isMacDelim (Char.ofNat n) = false := by
  have hv : n.isValidChar := Or.inl (by omega)
  have htn := charToNat_ofNat hv
  simp only [isMacDelim, Bool.or_eq_false_iff, decide_eq_false_iff_not]
  refine ⟨⟨⟨⟨⟨?_, ?_⟩, ?_⟩, ?_⟩, ?_⟩, ?_⟩ <;>
    (intro heq; rw [heq] at htn;
     simp only [show (':' : Char).toNat = 58 from rfl, show ('-' : Char).toNat = 45 from rfl,
       show (' ' : Char).toNat = 32 from rfl, show ('\t' : Char).toNat = 9 from rfl,
       show ('\n' : Char).toNat = 10 from rfl, show ('\r' : Char).toNat = 13 from rfl] at htn;
     omega)

theorem isMacDelim_jsToLowerChar (c : Char) (h : isMacDelim c = false) :
    isMacDelim (jsToLowerChar c) = false := by
  unfold jsToLowerChar
  by_cases h2 : 65 ≤ c.toNat ∧ c.toNat ≤ 90
  · rw [if_pos h2]
    exact isMacDelim_ofNat (by omega) (by omega)
  · rw [if_neg h2]; exact h

/-- Lowercasing an already delimiter-free string introduces no delimiters. -/
theorem stripMacDelims_jsToLower (s : String) :
    stripMacDelims (jsToLower (stripMacDelims s)) = jsToLower (stripMacDelims s) := by
  show String.mk (((s.toList.filter (fun c => !(isMacDelim c))).map jsToLowerChar).filter
      (fun c => !(isMacDelim c)))
    = String.mk ((s.toList.filter (fun c => !(isMacDelim c))).map jsToLowerChar)
  congr 1
  rw [List.filter_eq_self]
  intro a ha
  rcases List.mem_map.mp ha with ⟨c, hc, rfl⟩
  have hcd : isMacDelim c = false := by
    have := List.of_mem_filter hc
    simpa using this
  simp [isMacDelim_jsToLowerChar c hcd]

/-- V1 normalization is idempotent on any input keeping at least one
character after delimiter stripping. -/
theorem normalizeMacAddress_idem (s : String) (h : stripMacDelims s ≠ "") :
    normalizeMacAddress (normalizeMacAddress (some s)) = normalizeMacAddress (some s) := by
  have hs : s ≠ "" := by
    intro hs; apply h; rw [hs]; rfl
  have hstep : normalizeMacAddress (some s) = some (jsToLower (stripMacDelims s)) := by
    show (if s = "" then none else some (jsToLower (stripMacDelims s)))
        = some (jsToLower (stripMacDelims s))
    rw [if_neg hs]
  rw [hstep]
  have hne : jsToLower (stripMacDelims s) ≠ "" := by
    intro he
    apply h
    have h1 : (stripMacDelims s).toList.map jsToLowerChar = [] := congrArg String.data he
    have h2 : (stripMacDelims s).toList = [] := List.map_eq_nil_iff.mp h1
    show stripMacDelims s = ""
    cases hsd : stripMacDelims s with
    | mk l => rw [hsd] at h2; simp at h2; rw [h2]
  show (if jsToLower (stripMacDelims s) = "" then none
      else some (jsToLower (stripMacDelims (jsToLower (stripMacDelims s)))))
    = some (jsToLower (stripMacDelims s))
  rw [if_neg hne, stripMacDelims_jsToLower, jsToLower_idem]

/-- C5 counterexample: the claim asserts delimiter-insensitivity "in every
backend variant", but the ES/V2 normalizer (`part_001` lines 68 and 540) is a
bare `toLowerCase`, so the colon-delimited and delimiter-free renderings of
the same 12 hex digits normalize to different strings there. -/
theorem C5_counterexample :
    normalizeMacAddressLC (some "AA:BB:CC:DD:EE:FF") = Except.ok "aa:bb:cc:dd:ee:ff"
    ∧ normalizeMacAddressLC (some "AABBCCDDEEFF") = Except.ok "aabbccddeeff"
    ∧ ("aa:bb:cc:dd:ee:ff" : String) ≠ "aabbccddeeff" :=
  ⟨rfl, rfl, by decide⟩

/-- C5 (amended): normalization is idempotent in every backend variant — in V1
for every input keeping at least one character after delimiter stripping, in
ES/V2 unconditionally — and the colon-delimited, hyphen-delimited and
delimiter-free renderings of the same 12 hex digits normalize to one common
string in the V1 variant only, whose normalized form is the lookup key. -/
theorem C5_normalization_idempotent (s : String) (h : stripMacDelims s ≠ "") :
    normalizeMacAddress (normalizeMacAddress (some s)) = normalizeMacAddress (some s)
    ∧ (∀ t : String,
        (normalizeMacAddressLC (some t)).bind (fun u => normalizeMacAddressLC (some u))
          = normalizeMacAddressLC (some t))
    ∧ normalizeMacAddress (some "AA:BB:CC:DD:EE:FF") = some "aabbccddeeff"
    ∧ normalizeMacAddress (some "aabbccddeeff") = some "aabbccddeeff"
    ∧ normalizeMacAddress (some "aa-bb-cc-dd-ee-ff") = some "aabbccddeeff" := by
  refine ⟨normalizeMacAddress_idem s h, ?_, by decide, by decide, by decide⟩
  intro t
  show Except.ok (jsToLower (jsToLower t)) = Except.ok (jsToLower t)
  rw [jsToLower_idem]

/-- C5 witness: the idempotence law instantiated at a concrete MAC rendering. -/
theorem C5_witness :
    stripMacDelims "AA:BB:CC:DD:EE:FF" ≠ ""
    ∧ normalizeMacAddress (normalizeMacAddress (some "AA:BB:CC:DD:EE:FF"))
        = normalizeMacAddress (some "AA:BB:CC:DD:EE:FF") :=
  ⟨by decide, (C5_normalization_idempotent "AA:BB:CC:DD:EE:FF" (by decide)).1⟩

/-- C9 counterexample: the claim asserts null-safety in every backend variant,
but the ES/V2 normalizer applied to null throws a TypeError. -/
theorem C9_counterexample :
    normalizeMacAddressLC none = Except.error jsNullLowerError := rfl

/-- C9 (amended): the V1 normalizer returns null for null and for empty input
without throwing; the ES/V2 variants return the empty string for empty input
but throw a TypeError on null. -/
theorem C9_null_empty_behavior :
    normalizeMacAddress none = none
    ∧ normalizeMacAddress (some "") = none
    ∧ normalizeMacAddressLC (some "") = Except.ok ""
    ∧ ∀ u : String, normalizeMacAddressLC none ≠ Except.ok u := by
  refine ⟨rfl, rfl, rfl, ?_⟩
  intro u
  show Except.error jsNullLowerError ≠ Except.ok u
  intro h
  exact Except.noConfusion h

/-- C1: the aggregator takes, per device group, exactly last-sorted-value
minus first-sorted-value — for one device's readings [(t1,100),(t2,v),(t3,140)]
with t1 < t2 < t3 the delta is 140 - 100 = 40 whatever the intermediate value —
and any group with fewer than 2 readings contributes exactly (0, 0) under every
mapping and room filter without raising an error; the ES variant's analogue of
such a group (a bucket whose first and last hit coincide) also contributes
(0, 0). -/
theorem C1_delta_correctness (t1 t2 t3 : ℤ) (v : ℚ) (h12 : t1 < t2) (h23 : t2 < t3)
    (mac nm : String) (rs : List Reading) (hrs : rs.length < 2)
    (m : List (String × String)) (room : Option String) (key : String) (e : ℚ) :
    groupDelta [⟨mac, 100, t1⟩, ⟨mac, v, t2⟩, ⟨mac, 140, t3⟩] = 40
    ∧ groupContrib nm rs m room = (0, 0)
    ∧ bucketContrib ⟨key, some e, some e⟩ m room = (0, 0) := by
  refine ⟨?_, ?_, ?_⟩
  · have h13 : t1 ≤ t3 := le_of_lt (lt_trans h12 h23)
    simp [groupDelta, sortByTime, List.insertionSort, List.orderedInsert, timeLE,
      h12.le, h23.le, h13, List.getLastD]
    norm_num
  · rw [groupContrib, if_pos hrs]
  · simp only [bucketContrib, sub_self]
    split
    · rfl
    · split
      · split
        · split <;> rfl
        · split
          · split <;> rfl
          · rfl
      · split <;> rfl

/-- C1 witness: the three-reading example and an undersized group, at
concrete inputs. -/
theorem C1_witness :
    groupDelta [⟨"aa", 100, 1⟩, ⟨"aa", 150, 2⟩, ⟨"aa", 140, 3⟩] = 40
    ∧ groupContrib "aa" [] [] none = (0, 0)
    ∧ bucketContrib ⟨"aa", some 5, some 5⟩ [] none = (0, 0) :=
  C1_delta_correctness 1 2 3 150 (by decide) (by decide) "aa" "aa" []
    (by decide) [] none "aa" 5

/-- A supply-keyed group never contributes to the consumption accumulator. -/
theorem groupContrib_supply_fst (rs : List Reading) (m : List (String × String))
    (room : Option String) :
    (groupContrib normalizedSupplyMac rs m room).1 = 0 := by
  unfold groupContrib
  split
  · rfl
  · unfold macClassify
    rw [if_pos rfl]

/-- Dropping list entries whose mapped value is zero does not change a sum. -/
theorem sum_map_filter_of_zero {α : Type} (gs : List α) (f : α → ℚ) (p : α → Bool)
    (h : ∀ g ∈ gs, p g = false → f g = 0) :
    (gs.map f).sum = ((gs.filter p).map f).sum := by
  induction gs with
  | nil => rfl
  | cons g rest ih =>
    have ih2 := ih (fun x hx hpx => h x (List.mem_cons_of_mem g hx) hpx)
    cases hp : p g with
    | true => simp [List.filter_cons, hp, ih2]
    | false => simp [List.filter_cons, hp, ih2, h g (List.mem_cons_self g rest) hp]

/-- C2: a delta classified under the supply key goes to the supply
accumulator only — `consumptionEnergy` equals the sum over the non-supply
groups alone, for every data set, mapping (including mappings containing the
supply device) and room filter — and in the ES variant a bucket whose
normalized key is the supply MAC contributes nothing to consumption. -/
theorem C2_supply_exclusivity (data : List Reading) (m : List (String × String))
    (room : Option String) :
    (∀ energyDelta : ℚ,
        macClassify normalizedSupplyMac energyDelta m room = (0, energyDelta))
    ∧ consumptionSum data m room
        = (((groupByMac data).filter (fun g => !(g.1 == normalizedSupplyMac))).map
            (fun g => (groupContrib g.1 g.2 m room).1)).sum
    ∧ (∀ b : MacBucket, jsToLower b.key = SUPPLY_MAC_NORMALIZED →
        (bucketContrib b m room).1 = 0) := by
  refine ⟨?_, ?_, ?_⟩
  · intro energyDelta
    unfold macClassify
    rw [if_pos rfl]
  · unfold consumptionSum
    apply sum_map_filter_of_zero
    intro g _ hpg
    have hkey : g.1 = normalizedSupplyMac := by
      have : (g.1 == normalizedSupplyMac) = true := by
        cases hb : (g.1 == normalizedSupplyMac) with
        | true => rfl
        | false => rw [hb] at hpg; simp at hpg
      exact eq_of_beq this
    rw [hkey]
    exact groupContrib_supply_fst g.2 m room
  · intro b hb
    cases b with
    | mk key fe le2 =>
      cases fe <;> cases le2 <;> simp [bucketContrib] at hb ⊢ <;> rw [if_pos hb]

/-- C2 witness: the supply delta lands in the supply component even with the
supply device present in the mapping, at concrete inputs. -/
theorem C2_witness :
    macClassify normalizedSupplyMac 8 [(normalizedSupplyMac, "3")] none = (0, 8)
    ∧ (bucketContrib ⟨SUPPLY_MAC_NORMALIZED, some 50, some 58⟩
        [(normalizedSupplyMac, "3")] none).1 = 0 := by
  have h := C2_supply_exclusivity [] [(normalizedSupplyMac, "3")] none
  exact ⟨h.1 8, h.2.2 ⟨SUPPLY_MAC_NORMALIZED, some 50, some 58⟩ (by decide)⟩

/-- Rounding a negative quantity to 3 decimals never yields a positive value. -/
theorem round3_nonpos {q : ℚ} (h : q < 0) : round3 q ≤ 0 := by
  unfold round3
  have h1 : round (q * 1000) ≤ 0 := by
    have h2 : (round (q * 1000) : ℤ) < 1 := by
      rw [round_eq, Int.floor_lt]
      push_cast
      nlinarith
    omega
  have h3 : ((round (q * 1000) : ℤ) : ℚ) ≤ 0 := by exact_mod_cast h1
  apply div_nonpos_of_nonpos_of_nonneg h3
  norm_num

theorem max0_round3_of_neg {q : ℚ} (h : q < 0) : max 0 (round3 q) = 0 :=
  max_eq_left (round3_nonpos h)

/-- C3: each reported component equals max(0, round(total, 3 decimals)),
clamped independently at the total level; a negative total delta is reported
as exactly 0, and both reported components are always nonnegative — in the V1
row aggregation and in the ES bucket aggregation alike. -/
theorem C3_total_clamping (data : List Reading) (m : List (String × String))
    (room : Option String) (buckets : List MacBucket) :
    calculateEnergyFromInfluxData data m room
      = (max 0 (round3 (consumptionSum data m room)),
         max 0 (round3 (supplySum data m room)))
    ∧ (consumptionSum data m room < 0 →
        (calculateEnergyFromInfluxData data m room).1 = 0)
    ∧ (supplySum data m room < 0 →
        (calculateEnergyFromInfluxData data m room).2 = 0)
    ∧ 0 ≤ (calculateEnergyFromInfluxData data m room).1
    ∧ 0 ≤ (calculateEnergyFromInfluxData data m room).2
    ∧ calculateEnergyFromBuckets buckets m room
      = (max 0 (round3 (consumptionSumES buckets m room)),
         max 0 (round3 (supplySumES buckets m room)))
    ∧ (consumptionSumES buckets m room < 0 →
        (calculateEnergyFromBuckets buckets m room).1 = 0)
    ∧ (supplySumES buckets m room < 0 →
        (calculateEnergyFromBuckets buckets m room).2 = 0) := by
  refine ⟨rfl, ?_, ?_, le_max_left _ _, le_max_left _ _, rfl, ?_, ?_⟩
  · intro h
    show max 0 (round3 (consumptionSum data m room)) = 0
    exact max0_round3_of_neg h
  · intro h
    show max 0 (round3 (supplySum data m room)) = 0
    exact max0_round3_of_neg h
  · intro h
    show max 0 (round3 (consumptionSumES buckets m room)) = 0
    exact max0_round3_of_neg h
  · intro h
    show max 0 (round3 (supplySumES buckets m room)) = 0
    exact max0_round3_of_neg h

/-- C3 witness: synthetic meter rollovers (decreasing cumulative readings)
produce negative totals, reported as exactly 0 in both aggregation variants. -/
theorem C3_witness :
    consumptionSum [⟨"aa", 100, 1⟩, ⟨"aa", 50, 2⟩] [("aa", "1")] none < 0
    ∧ (calculateEnergyFromInfluxData [⟨"aa", 100, 1⟩, ⟨"aa", 50, 2⟩]
        [("aa", "1")] none).1 = 0
    ∧ supplySum [⟨"08:f9:e0:73:64:db", 200, 1⟩, ⟨"08:f9:e0:73:64:db", 120, 2⟩]
        [("aa", "1")] none < 0
    ∧ (calculateEnergyFromInfluxData
        [⟨"08:f9:e0:73:64:db", 200, 1⟩, ⟨"08:f9:e0:73:64:db", 120, 2⟩]
        [("aa", "1")] none).2 = 0
    ∧ consumptionSumES [⟨"aa", some 10, some 4⟩] [("aa", "1")] none < 0
    ∧ (calculateEnergyFromBuckets [⟨"aa", some 10, some 4⟩] [("aa", "1")] none).1 = 0
    ∧ supplySumES [⟨"08:f9:e0:73:64:db", some 9, some 2⟩] [("aa", "1")] none < 0
    ∧ (calculateEnergyFromBuckets [⟨"08:f9:e0:73:64:db", some 9, some 2⟩]
        [("aa", "1")] none).2 = 0 := by
  have hc : consumptionSum [⟨"aa", 100, 1⟩, ⟨"aa", 50, 2⟩] [("aa", "1")] none < 0 := by
    have h : consumptionSum [⟨"aa", 100, 1⟩, ⟨"aa", 50, 2⟩] [("aa", "1")] none
        = (50 : ℚ) - 100 + 0 := rfl
    rw [h]; norm_num
  have hs : supplySum [⟨"08:f9:e0:73:64:db", 200, 1⟩, ⟨"08:f9:e0:73:64:db", 120, 2⟩]
      [("aa", "1")] none < 0 := by
    have h : supplySum [⟨"08:f9:e0:73:64:db", 200, 1⟩, ⟨"08:f9:e0:73:64:db", 120, 2⟩]
        [("aa", "1")] none = (120 : ℚ) - 200 + 0 := rfl
    rw [h]; norm_num
  have hces : consumptionSumES [⟨"aa", some 10, some 4⟩] [("aa", "1")] none < 0 := by
    have h : consumptionSumES [⟨"aa", some 10, some 4⟩] [("aa", "1")] none
        = (4 : ℚ) - 10 + 0 := rfl
    rw [h]; norm_num
  have hses : supplySumES [⟨"08:f9:e0:73:64:db", some 9, some 2⟩] [("aa", "1")] none < 0 := by
    have h : supplySumES [⟨"08:f9:e0:73:64:db", some 9, some 2⟩] [("aa", "1")] none
        = (2 : ℚ) - 9 + 0 := rfl
    rw [h]; norm_num
  refine ⟨hc, ?_, hs, ?_, hces, ?_, hses, ?_⟩
  · exact (C3_total_clamping [⟨"aa", 100, 1⟩, ⟨"aa", 50, 2⟩] [("aa", "1")] none []).2.1 hc
  · exact (C3_total_clamping
      [⟨"08:f9:e0:73:64:db", 200, 1⟩, ⟨"08:f9:e0:73:64:db", 120, 2⟩]
      [("aa", "1")] none []).2.2.1 hs
  · exact (C3_total_clamping [] [("aa", "1")] none
      [⟨"aa", some 10, some 4⟩]).2.2.2.2.2.2.1 hces
  · exact (C3_total_clamping [] [("aa", "1")] none
      [⟨"08:f9:e0:73:64:db", some 9, some 2⟩]).2.2.2.2.2.2.2 hses

/-- C6 counterexample: with upstream validation bypassed, the period-generation
stage does not fail on granularity "week" — `getTimePeriods` silently returns
an empty bucket list and `buildDateRangeQuery` silently substitutes the hour
(default) range; only the HTTP handler layer rejects the value. -/
theorem C6_counterexample :
    getTimePeriods "week" ⟨2025, 5, 16, 0⟩ = []
    ∧ buildDateRangeQuery "week" ⟨2025, 5, 16, 0⟩
        = buildDateRangeQuery "hour" ⟨2025, 5, 16, 0⟩ :=
  ⟨rfl, rfl⟩

/-- C6 (amended): for every granularity outside {hour, day, month, year}, the
HTTP handler rejects the request with the InvalidInput message before the
period stage; if that validation is bypassed, `getTimePeriods` silently
returns an empty list and `buildDateRangeQuery` silently falls back to the
hour range — neither raises an error. -/
theorem C6_invalid_granularity (p : String) (hp : ¬ p ∈ VALID_PERIODS) :
    (∀ dateValid mappingData room,
        handleDataV1 p dateValid mappingData room
          = HandlerResponse.badRequest "Invalid period. Use: hour, day, month, or year")
    ∧ (∀ dateValid m2 room,
        handleDataES p dateValid m2 room
          = HandlerResponse.badRequest "Invalid period. Use: hour, day, month, or year")
    ∧ (∀ d, getTimePeriods p d = [])
    ∧ (∀ d, buildDateRangeQuery p d = buildDateRangeQuery "hour" d) := by
  have h1 : p ≠ "hour" := fun h => hp (by rw [h]; decide)
  have h2 : p ≠ "day" := fun h => hp (by rw [h]; decide)
  have h3 : p ≠ "month" := fun h => hp (by rw [h]; decide)
  have h4 : p ≠ "year" := fun h => hp (by rw [h]; decide)
  refine ⟨?_, ?_, ?_, ?_⟩
  · intro dateValid mappingData room
    rw [handleDataV1.eq_def, if_pos hp]
  · intro dateValid m2 room
    rw [handleDataES.eq_def, if_pos hp]
  · intro d
    rw [getTimePeriods, getTimePeriodsConfig,
      if_neg h1, if_neg h2, if_neg h3, if_neg h4]
  · intro d
    rw [buildDateRangeQuery, if_neg h1, if_neg h2, if_neg h3, if_neg h4]
    rw [buildDateRangeQuery, if_pos rfl]

/-- C6 witness: the amended behavior at the concrete granularity "week". -/
theorem C6_witness :
    handleDataV1 "week" true emptyMappingData none
      = HandlerResponse.badRequest "Invalid period. Use: hour, day, month, or year"
    ∧ handleDataES "week" true [] none
      = HandlerResponse.badRequest "Invalid period. Use: hour, day, month, or year"
    ∧ getTimePeriods "week" ⟨2024, 1, 29, 0⟩ = []
    ∧ buildDateRangeQuery "week" ⟨2024, 1, 29, 0⟩
        = buildDateRangeQuery "hour" ⟨2024, 1, 29, 0⟩ := by
  have h := C6_invalid_granularity "week" (by decide)
  exact ⟨h.1 true emptyMappingData none, h.2.1 true [] none,
    h.2.2.1 ⟨2024, 1, 29, 0⟩, h.2.2.2 ⟨2024, 1, 29, 0⟩⟩

/-- C7: whenever a refresh is due (the cache guard fails) and the storage
query errors, `getMetersMapping` returns the previous cache contents when one
exists and the empty mapping otherwise, leaves the cache state untouched, and
never surfaces the storage error — in the V1 and the ES/V2 cache alike. -/
theorem C7_fail_open (st : CacheState) (stES : CacheStateES) (now : ℤ) (e : String)
    (h : cacheValid st now = false) (hES : cacheValidES stES now = false) :
    getMetersMapping st now (Except.error e)
      = Except.ok (st.metersCache.getD emptyMappingData, st)
    ∧ (∀ storage, (getMetersMapping st now storage).isOk = true)
    ∧ getMetersMappingES stES now (Except.error e)
      = Except.ok (stES.metersCache.getD [], stES)
    ∧ (∀ storage, (getMetersMappingES stES now storage).isOk = true) := by
  refine ⟨?_, ?_, ?_, ?_⟩
  · rw [getMetersMapping.eq_def, h]
    simp
  · intro storage
    rw [getMetersMapping.eq_def]
    split
    · rfl
    · cases storage <;> rfl
  · rw [getMetersMappingES.eq_def, hES]
    simp
  · intro storage
    rw [getMetersMappingES.eq_def]
    split
    · rfl
    · cases storage <;> rfl

/-- C7 witness: a stale populated cache and an empty cache, each surviving a
storage failure without an error. -/
theorem C7_witness :
    getMetersMapping
        ⟨some ⟨[("aa", "1")], [("1", [("aa", "AA")])], [("aa", "AA")]⟩, some 1000⟩
        100000000 (Except.error "storage down")
      = Except.ok (⟨[("aa", "1")], [("1", [("aa", "AA")])], [("aa", "AA")]⟩,
          ⟨some ⟨[("aa", "1")], [("1", [("aa", "AA")])], [("aa", "AA")]⟩, some 1000⟩)
    ∧ getMetersMapping ⟨none, none⟩ 100000000 (Except.error "storage down")
      = Except.ok (emptyMappingData, ⟨none, none⟩)
    ∧ getMetersMappingES ⟨some [("aa", "1")], some 1000⟩ 100000000
        (Except.error "storage down")
      = Except.ok ([("aa", "1")], ⟨some [("aa", "1")], some 1000⟩) := by
  refine ⟨?_, ?_, ?_⟩
  · exact (C7_fail_open
      ⟨some ⟨[("aa", "1")], [("1", [("aa", "AA")])], [("aa", "AA")]⟩, some 1000⟩
      ⟨none, none⟩ 100000000 "storage down" (by decide) (by decide)).1
  · exact (C7_fail_open ⟨none, none⟩ ⟨none, none⟩ 100000000 "storage down"
      (by decide) (by decide)).1
  · exact (C7_fail_open ⟨none, none⟩ ⟨some [("aa", "1")], some 1000⟩ 100000000
      "storage down" (by decide) (by decide)).2.2.1

/-- C8 counterexample: the claim asserts that the empty-room response carries
the list of known room identifiers and a zero record count, but the ES/V2
handlers answer an unmapped room with a message-only payload — no room list
and no record count. -/
theorem C8_counterexample :
    handleDataES "hour" true [("aa", "1")] (some "2")
      = HandlerResponse.okEmpty "No meters found for the selected room." none none := rfl

/-- C8 (amended): a request naming a room with no mapped devices yields a
non-error empty-data response in every variant; in V1 it carries the
explanatory message, the known room identifiers and a zero record count,
while in the ES/V2 variants it carries only the fixed explanatory message,
without the room list or record count. -/
theorem C8_unmapped_room (p : String) (hp : p ∈ VALID_PERIODS) (md : MappingData)
    (m2 : List (String × String)) (r : String) (hr : ¬ r = "")
    (hmd : (objGet md.roomToMacsMap r).getD [] = [])
    (hm2 : m2.filter (fun kv => kv.2 = r) = []) :
    handleDataV1 p true md (some r)
      = HandlerResponse.okEmpty
          ("No meters found for room " ++ r ++ ". Available rooms: " ++
            String.intercalate ", " (objKeys md.roomToMacsMap))
          (some 0) (some (objKeys md.roomToMacsMap))
    ∧ handleDataES p true m2 (some r)
      = HandlerResponse.okEmpty "No meters found for the selected room." none none := by
  constructor
  · rw [handleDataV1.eq_def, if_neg (by simpa using hp)]
    simp only [Bool.not_true, Bool.false_eq_true, if_false]
    rw [if_neg hr, hmd]
    rfl
  · rw [handleDataES.eq_def, if_neg (by simpa using hp)]
    simp only [Bool.not_true, Bool.false_eq_true, if_false]
    rw [if_neg hr, hm2]
    rfl

/-- C8 witness: requesting unmapped room "2" when only room "1" has meters. -/
theorem C8_witness :
    handleDataV1 "hour" true ⟨[("aa", "1")], [("1", [("aa", "AA")])], [("aa", "AA")]⟩
        (some "2")
      = HandlerResponse.okEmpty "No meters found for room 2. Available rooms: 1"
          (some 0) (some ["1"])
    ∧ handleDataES "hour" true [("aa", "1")] (some "2")
      = HandlerResponse.okEmpty "No meters found for the selected room." none none := by
  have h := C8_unmapped_room "hour" (by decide)
    ⟨[("aa", "1")], [("1", [("aa", "AA")])], [("aa", "AA")]⟩ [("aa", "1")] "2"
    (by decide) (by decide) (by decide)
  exact ⟨h.1, h.2⟩

/-- A fueled loop step: when the while-condition holds, one bucket is emitted. -/
theorem periodLoop_step (u : String) (endT current : LDT) (f : ℕ)
    (h : (ltLDT current endT || sameUnit u current endT) = true) :
    periodLoop u endT (f + 1) current
      = mkPeriod u current :: periodLoop u endT f (addUnit u current) := by
  rw [periodLoop, if_pos (by simp [h])]

/-- A fueled loop stop: when the while-condition fails, the loop ends. -/
theorem periodLoop_stop (u : String) (endT current : LDT) (fuel : ℕ)
    (h : (ltLDT current endT || sameUnit u current endT) = false) :
    periodLoop u endT fuel current = [] := by
  cases fuel with
  | zero => rfl
  | succ f => rw [periodLoop, if_neg (by simp [h])]

/-- Chronological comparison on one calendar date reduces to the time fields. -/
theorem ltLDT_same_date (y : ℤ) (m d : ℕ) (ms1 ms2 : ℤ) :
    ltLDT ⟨y, m, d, ms1⟩ ⟨y, m, d, ms2⟩ = decide (ms1 < ms2) := by
  unfold ltLDT
  simp

/-- Chronological comparison within one month reduces to the day fields. -/
theorem ltLDT_day_lt {d1 d2 : ℕ} (y : ℤ) (m : ℕ) (h : d1 < d2) (ms1 ms2 : ℤ) :
    ltLDT ⟨y, m, d1, ms1⟩ ⟨y, m, d2, ms2⟩ = true := by
  unfold ltLDT
  simp [Nat.ne_of_lt h, h]

theorem sameUnit_hour_eq (a b : LDT) :
    sameUnit "hour" a b
      = (sameDate a b && (a.msOfDay / MS_PER_HOUR == b.msOfDay / MS_PER_HOUR)) := by
  unfold sameUnit
  rw [if_pos rfl]

theorem sameUnit_day_eq (a b : LDT) : sameUnit "day" a b = sameDate a b := by
  unfold sameUnit
  rw [if_neg (by decide), if_pos rfl]

/-- The hour loop keeps running at each hour 0-23 of the day. -/
theorem hour_cond_true (D : LDT) (k : ℕ) (hk : k ≤ 23) :
    (ltLDT (hourAt D k) (endOfDay D) || sameUnit "hour" (hourAt D k) (endOfDay D)) = true := by
  have h : ((k : ℤ) * MS_PER_HOUR) < MS_PER_DAY - 1 := by
    unfold MS_PER_HOUR MS_PER_DAY
    omega
  cases D with
  | mk y m d ms =>
    unfold hourAt endOfDay
    rw [ltLDT_same_date]
    simp only [Bool.or_eq_true, decide_eq_true_eq]
    left
    exact h

/-- Advancing one hour before 23:00 stays within the day. -/
theorem addUnit_hour_step (D : LDT) (k : ℕ) (hk : k < 23) :
    addUnit "hour" (hourAt D k) = hourAt D (k + 1) := by
  unfold addUnit hourAt
  rw [if_pos rfl]
  rw [if_pos (by
    simp only []
    unfold MS_PER_HOUR MS_PER_DAY
    omega)]
  simp only [LDT.mk.injEq, true_and]
  push_cast
  ring

/-- Advancing one hour from 23:00 rolls over to midnight of the next day. -/
theorem addUnit_hour_roll (D : LDT) :
    addUnit "hour" (hourAt D 23)
      = ⟨(addDay (hourAt D 23)).year, (addDay (hourAt D 23)).month,
         (addDay (hourAt D 23)).day, 0⟩ := by
  unfold addUnit
  rw [if_pos rfl]
  rw [if_neg (by simp [hourAt, MS_PER_HOUR, MS_PER_DAY])]
  have hms : (hourAt D 23).msOfDay + MS_PER_HOUR - MS_PER_DAY = 0 := by
    simp [hourAt, MS_PER_HOUR, MS_PER_DAY]
  rw [hms]

/-- The calendar day after a valid date is strictly later and is a different
date, whatever the millisecond fields. -/
theorem addDay_date_gt (a : LDT) (hm : a.month ≤ 11)
    (hd : a.day ≤ daysInMonth a.year a.month) (ms1 ms2 : ℤ) :
    ltLDT ⟨(addDay a).year, (addDay a).month, (addDay a).day, ms1⟩
        ⟨a.year, a.month, a.day, ms2⟩ = false
    ∧ sameDate ⟨(addDay a).year, (addDay a).month, (addDay a).day, ms1⟩
        ⟨a.year, a.month, a.day, ms2⟩ = false := by
  unfold addDay
  split_ifs with h1 h2 <;> constructor <;> simp [ltLDT, sameDate] <;> omega

/-- After the 24th hour bucket the loop condition is false. -/
theorem hour_cond_stop (D : LDT) (hD : ValidDate D) :
    (ltLDT ⟨(addDay (hourAt D 23)).year, (addDay (hourAt D 23)).month,
          (addDay (hourAt D 23)).day, 0⟩ (endOfDay D)
      || sameUnit "hour" ⟨(addDay (hourAt D 23)).year, (addDay (hourAt D 23)).month,
          (addDay (hourAt D 23)).day, 0⟩ (endOfDay D)) = false := by
  obtain ⟨hm, _, hd2, _, _⟩ := hD
  have hgt := addDay_date_gt (hourAt D 23) (by simpa [hourAt] using hm)
    (by simpa [hourAt] using hd2) 0 (MS_PER_DAY - 1)
  rw [Bool.or_eq_false_iff]
  constructor
  · have h1 := hgt.1
    simp only [hourAt] at h1
    unfold endOfDay
    exact h1
  · rw [sameUnit_hour_eq]
    have h2 := hgt.2
    simp only [hourAt] at h2
    unfold endOfDay
    rw [show sameDate ⟨(addDay (hourAt D 23)).year, (addDay (hourAt D 23)).month,
        (addDay (hourAt D 23)).day, 0⟩ ⟨D.year, D.month, D.day, MS_PER_DAY - 1⟩ = false by
      simp only [hourAt]
      exact h2]
    rfl

/-- Closed form of the tail of the hour loop, from hour 23 - j onward. -/
theorem periodLoop_hour_tail (D : LDT) (hD : ValidDate D) :
    ∀ j : ℕ, j ≤ 23 → ∀ fuel : ℕ, j + 2 ≤ fuel →
      periodLoop "hour" (endOfDay D) fuel (hourAt D (23 - j))
        = (List.range (j + 1)).map (fun i => mkPeriod "hour" (hourAt D (23 - j + i))) := by
  intro j
  induction j with
  | zero =>
    intro _ fuel hfuel
    obtain ⟨f, rfl⟩ : ∃ f, fuel = f + 1 := ⟨fuel - 1, by omega⟩
    rw [periodLoop_step "hour" (endOfDay D) (hourAt D (23 - 0)) f
      (hour_cond_true D (23 - 0) (by omega))]
    rw [show (23 - 0 : ℕ) = 23 from rfl]
    rw [addUnit_hour_roll]
    rw [periodLoop_stop "hour" (endOfDay D) _ f (hour_cond_stop D hD)]
    rfl
  | succ j ih =>
    intro hj fuel hfuel
    obtain ⟨f, rfl⟩ : ∃ f, fuel = f + 1 := ⟨fuel - 1, by omega⟩
    rw [periodLoop_step "hour" (endOfDay D) (hourAt D (23 - (j + 1))) f
      (hour_cond_true D (23 - (j + 1)) (by omega))]
    rw [addUnit_hour_step D (23 - (j + 1)) (by omega)]
    rw [show (23 - (j + 1) + 1 : ℕ) = 23 - j by omega]
    rw [ih (by omega) f (by omega)]
    nth_rewrite 2 [List.range_succ_eq_map]
    rw [List.map_cons, List.map_map]
    refine congrArg₂ List.cons rfl ?_
    apply List.map_congr_left
    intro i _
    show mkPeriod "hour" (hourAt D (23 - j + i))
        = mkPeriod "hour" (hourAt D (23 - (j + 1) + (i + 1)))
    have harith : 23 - j + i = 23 - (j + 1) + (i + 1) := by omega
    rw [harith]

/-- The hour-granularity generator, in closed form: 24 buckets, one per hour
of the local day of `D`, in order. -/
theorem getTimePeriods_hour (D : LDT) (hD : ValidDate D) :
    getTimePeriods "hour" D
      = (List.range 24).map (fun i => mkPeriod "hour" (hourAt D i)) := by
  have h := periodLoop_hour_tail D hD 23 (le_refl 23) LOOP_FUEL (by unfold LOOP_FUEL; omega)
  have hstart : startOfDay D = hourAt D (23 - 23) := by
    unfold startOfDay hourAt
    simp
  unfold getTimePeriods getTimePeriodsConfig
  rw [if_pos rfl]
  show periodLoop "hour" (endOfDay D) LOOP_FUEL (startOfDay D) = _
  rw [hstart, h]
  apply List.map_congr_left
  intro i _
  have harith : 23 - 23 + i = i := by omega
  rw [harith]

/-- One hour bucket, fully computed: UTC bounds offset from the local
midnight instant, and the hour ordinal as sort key. -/
theorem mkPeriod_hour (D : LDT) (k : ℕ) :
    mkPeriod "hour" (hourAt D k)
      = ⟨hourAt D k, toUtcMs (startOfDay D) + (k : ℤ) * MS_PER_HOUR,
         toUtcMs (startOfDay D) + ((k : ℤ) + 1) * MS_PER_HOUR - 1, (k : ℤ)⟩ := by
  have hdiv : ((k : ℤ) * MS_PER_HOUR) / MS_PER_HOUR = (k : ℤ) :=
    Int.mul_ediv_cancel (k : ℤ) (by norm_num [MS_PER_HOUR])
  unfold mkPeriod truncUnit endOfUnitF getValue
  rw [if_pos rfl, if_pos rfl, if_pos rfl]
  unfold hourAt toUtcMs startOfDay
  simp only [hdiv, CalPeriod.mk.injEq, true_and, and_true]
  constructor
  · ring
  · ring

/-- Every month has at least one day. -/
theorem daysInMonth_pos (y : ℤ) (m : ℕ) : 1 ≤ daysInMonth y m := by
  unfold daysInMonth
  split <;> first | omega | (split <;> omega)

/-- The day loop keeps running on each day of the month. -/
theorem day_cond_true (y : ℤ) (m : ℕ) (d : ℕ) (hd : 1 ≤ d)
    (hdim : d ≤ daysInMonth y m) :
    (ltLDT ⟨y, m, d, 0⟩ ⟨y, m, daysInMonth y m, MS_PER_DAY - 1⟩
      || sameUnit "day" ⟨y, m, d, 0⟩ ⟨y, m, daysInMonth y m, MS_PER_DAY - 1⟩) = true := by
  rcases Nat.lt_or_ge d (daysInMonth y m) with h | h
  · rw [ltLDT_day_lt y m h]
    rfl
  · have hd2 : d = daysInMonth y m := le_antisymm hdim h
    subst hd2
    rw [ltLDT_same_date]
    simp only [Bool.or_eq_true, decide_eq_true_eq]
    left
    unfold MS_PER_DAY
    omega

/-- Advancing one day before month end stays in the month. -/
theorem addUnit_day_step (y : ℤ) (m : ℕ) (d : ℕ) (h : d + 1 ≤ daysInMonth y m) :
    addUnit "day" ⟨y, m, d, 0⟩ = ⟨y, m, d + 1, 0⟩ := by
  unfold addUnit
  rw [if_neg (by decide), if_pos rfl]
  unfold addDay
  rw [if_pos (by simpa using h)]

/-- After the last day bucket of the month, the loop condition is false. -/
theorem day_cond_stop (y : ℤ) (m : ℕ) (hm : m ≤ 11) :
    (ltLDT (addUnit "day" ⟨y, m, daysInMonth y m, 0⟩)
        ⟨y, m, daysInMonth y m, MS_PER_DAY - 1⟩
      || sameUnit "day" (addUnit "day" ⟨y, m, daysInMonth y m, 0⟩)
        ⟨y, m, daysInMonth y m, MS_PER_DAY - 1⟩) = false := by
  have hgt := addDay_date_gt ⟨y, m, daysInMonth y m, 0⟩ hm (le_refl _) 0 (MS_PER_DAY - 1)
  have hXd : addUnit "day" ⟨y, m, daysInMonth y m, 0⟩
      = ⟨(addDay ⟨y, m, daysInMonth y m, 0⟩).year,
         (addDay ⟨y, m, daysInMonth y m, 0⟩).month,
         (addDay ⟨y, m, daysInMonth y m, 0⟩).day, 0⟩ := by
    rw [show addUnit "day" ⟨y, m, daysInMonth y m, 0⟩ = addDay ⟨y, m, daysInMonth y m, 0⟩ by
      unfold addUnit
      rw [if_neg (by decide), if_pos rfl]]
    unfold addDay
    split_ifs <;> rfl
  rw [hXd, Bool.or_eq_false_iff]
  refine ⟨hgt.1, ?_⟩
  rw [sameUnit_day_eq]
  exact hgt.2

/-- Closed form of the tail of the day loop, from day dim - j onward. -/
theorem periodLoop_day_tail (y : ℤ) (m : ℕ) (hm : m ≤ 11) :
    ∀ j : ℕ, j ≤ daysInMonth y m - 1 → ∀ fuel : ℕ, j + 2 ≤ fuel →
      periodLoop "day" ⟨y, m, daysInMonth y m, MS_PER_DAY - 1⟩ fuel
          ⟨y, m, daysInMonth y m - j, 0⟩
        = (List.range (j + 1)).map
            (fun i => mkPeriod "day" ⟨y, m, daysInMonth y m - j + i, 0⟩) := by
  have hdim1 := daysInMonth_pos y m
  intro j
  induction j with
  | zero =>
    intro _ fuel hfuel
    obtain ⟨f, rfl⟩ : ∃ f, fuel = f + 1 := ⟨fuel - 1, by omega⟩
    rw [show (daysInMonth y m - 0 : ℕ) = daysInMonth y m from rfl]
    rw [periodLoop_step "day" _ _ f (day_cond_true y m (daysInMonth y m)
      (by omega) (le_refl _))]
    rw [periodLoop_stop "day" _ _ f (day_cond_stop y m hm)]
    rfl
  | succ j ih =>
    intro hj fuel hfuel
    obtain ⟨f, rfl⟩ : ∃ f, fuel = f + 1 := ⟨fuel - 1, by omega⟩
    rw [periodLoop_step "day" _ _ f (day_cond_true y m (daysInMonth y m - (j + 1))
      (by omega) (by omega))]
    rw [addUnit_day_step y m (daysInMonth y m - (j + 1)) (by omega)]
    rw [show (daysInMonth y m - (j + 1) + 1 : ℕ) = daysInMonth y m - j by omega]
    rw [ih (by omega) f (by omega)]
    nth_rewrite 2 [List.range_succ_eq_map]
    rw [List.map_cons, List.map_map]
    refine congrArg₂ List.cons rfl ?_
    apply List.map_congr_left
    intro i _
    show mkPeriod "day" ⟨y, m, daysInMonth y m - j + i, 0⟩
        = mkPeriod "day" ⟨y, m, daysInMonth y m - (j + 1) + (i + 1), 0⟩
    have harith : daysInMonth y m - j + i = daysInMonth y m - (j + 1) + (i + 1) := by omega
    rw [harith]

/-- The day-granularity generator, in closed form: one bucket per day of the
local month of `E`, in order. -/
theorem getTimePeriods_day (E : LDT) (hE : ValidDate E) :
    getTimePeriods "day" E
      = (List.range (daysInMonth E.year E.month)).map
          (fun i => mkPeriod "day" ⟨E.year, E.month, 1 + i, 0⟩) := by
  obtain ⟨hm, _, _, _, _⟩ := hE
  have hdim1 := daysInMonth_pos E.year E.month
  have h := periodLoop_day_tail E.year E.month hm (daysInMonth E.year E.month - 1)
    (le_refl _) LOOP_FUEL (by
      have : daysInMonth E.year E.month ≤ 31 := by
        unfold daysInMonth
        split <;> first | omega | (split <;> omega)
      norm_num [LOOP_FUEL]
      omega)
  unfold getTimePeriods getTimePeriodsConfig
  rw [if_neg (by decide), if_pos rfl]
  show periodLoop "day" (endOfMonth E) LOOP_FUEL (startOfMonth E) = _
  unfold endOfMonth startOfMonth
  rw [show (⟨E.year, E.month, 1, 0⟩ : LDT)
      = ⟨E.year, E.month, daysInMonth E.year E.month - (daysInMonth E.year E.month - 1), 0⟩ by
    congr 1
    omega]
  rw [h]
  rw [show (daysInMonth E.year E.month - 1 + 1 : ℕ) = daysInMonth E.year E.month by omega]
  apply List.map_congr_left
  intro i _
  congr 2
  omega


/-- C4: for granularity hour and every valid local date D the generator
produces exactly 24 buckets in order whose sort keys are 0..23 and whose UTC
bounds are the 24 contiguous hour windows covering D's local (UTC+8)
midnight-to-midnight; for granularity day it produces exactly one bucket per
day of the containing local month (`daysInMonth`), hence 30 for a 30-day
month, 31 for a 31-day month and 29 for February of a leap year. -/
theorem C4_period_coverage (D E : LDT) (hD : ValidDate D) (hE : ValidDate E) :
    (getTimePeriods "hour" D).map (fun p => (p.utcStart, p.utcEnd, p.period))
      = (List.range 24).map (fun k : ℕ =>
          (toUtcMs (startOfDay D) + (k : ℤ) * MS_PER_HOUR,
           toUtcMs (startOfDay D) + ((k : ℤ) + 1) * MS_PER_HOUR - 1, (k : ℤ)))
    ∧ (getTimePeriods "day" E).length = daysInMonth E.year E.month := by
  constructor
  · rw [getTimePeriods_hour D hD, List.map_map]
    apply List.map_congr_left
    intro k _
    show (fun p : CalPeriod => (p.utcStart, p.utcEnd, p.period)) (mkPeriod "hour" (hourAt D k))
        = (toUtcMs (startOfDay D) + (k : ℤ) * MS_PER_HOUR,
           toUtcMs (startOfDay D) + ((k : ℤ) + 1) * MS_PER_HOUR - 1, (k : ℤ))
    rw [mkPeriod_hour D k]
  · rw [getTimePeriods_day E hE, List.length_map, List.length_range]

/-- C4 witness: June 16 2025 (24 hour buckets spanning the local day), June
2025 (30 day buckets), July 2025 (31), February 2024 (29). -/
theorem C4_witness :
    (getTimePeriods "hour" ⟨2025, 5, 16, 0⟩).map (fun p => (p.utcStart, p.utcEnd, p.period))
      = (List.range 24).map (fun k : ℕ =>
          (toUtcMs (startOfDay ⟨2025, 5, 16, 0⟩) + (k : ℤ) * MS_PER_HOUR,
           toUtcMs (startOfDay ⟨2025, 5, 16, 0⟩) + ((k : ℤ) + 1) * MS_PER_HOUR - 1, (k : ℤ)))
    ∧ (getTimePeriods "day" ⟨2025, 5, 16, 0⟩).length = 30
    ∧ (getTimePeriods "day" ⟨2025, 6, 1, 0⟩).length = 31
    ∧ (getTimePeriods "day" ⟨2024, 1, 29, 0⟩).length = 29 := by
  refine ⟨?_, ?_, ?_, ?_⟩
  · exact (C4_period_coverage ⟨2025, 5, 16, 0⟩ ⟨2025, 5, 16, 0⟩ (by decide) (by decide)).1
  · exact ((C4_period_coverage ⟨2025, 5, 16, 0⟩ ⟨2025, 5, 16, 0⟩ (by decide) (by decide)).2).trans rfl
  · exact ((C4_period_coverage ⟨2025, 6, 1, 0⟩ ⟨2025, 6, 1, 0⟩ (by decide) (by decide)).2).trans rfl
  · exact ((C4_period_coverage ⟨2024, 1, 29, 0⟩ ⟨2024, 1, 29, 0⟩ (by decide) (by decide)).2).trans rfl

/-- Reading an association list after a keyed push. -/
theorem objGet_objPush (gs : List (String × List Reading)) (k k2 : String) (r : Reading) :
    objGet (objPush gs k r) k2
      = if k2 = k then some ((objGet gs k).getD [] ++ [r]) else objGet gs k2 := by
  induction gs with
  | nil =>
    by_cases h : k2 = k
    · subst h
      simp [objPush, objGet]
    · have h' : ¬ k = k2 := fun hh => h hh.symm
      simp [objPush, objGet, h, h']
  | cons g rest ih =>
    obtain ⟨k0, xs⟩ := g
    by_cases h0 : k0 = k
    · subst h0
      by_cases h2 : k2 = k0
      · subst h2
        simp [objPush, objGet]
      · have h2' : ¬ k0 = k2 := fun hh => h2 hh.symm
        simp [objPush, objGet, h2, h2']
    · by_cases h2 : k2 = k0
      · subst h2
        have hk : ¬ k2 = k := fun hh => h0 (by rw [hh])
        simp [objPush, objGet, h0, hk, ih]
      · have h2' : ¬ k0 = k2 := fun hh => h2 hh.symm
        by_cases hk : k2 = k
        · subst hk
          simp [objPush, objGet, h0, h2', ih]
        · simp [objPush, objGet, h0, h2', hk, ih]

/-- The key set after a keyed push. -/
theorem objKeys_objPush (gs : List (String × List Reading)) (k : String) (r : Reading) :
    objKeys (objPush gs k r)
      = if (objGet gs k).isSome then objKeys gs else objKeys gs ++ [k] := by
  induction gs with
  | nil => simp [objPush, objGet, objKeys]
  | cons g rest ih =>
    obtain ⟨k0, xs⟩ := g
    by_cases h0 : k0 = k
    · subst h0
      simp [objPush, objGet, objKeys]
    · simp only [objPush, objGet, if_neg h0, objKeys, List.map_cons]
      rw [show objKeys (objPush rest k r) = List.map Prod.fst (objPush rest k r) from rfl] at ih
      rw [ih]
      by_cases hs : (objGet rest k).isSome
      · rw [if_pos hs, if_pos hs]
        rfl
      · rw [if_neg hs, if_neg hs]
        rfl

/-- Key membership in an association list is definedness of the lookup. -/
theorem mem_objKeys_iff_isSome (gs : List (String × List Reading)) (k : String) :
    k ∈ objKeys gs ↔ (objGet gs k).isSome = true := by
  induction gs with
  | nil => simp [objKeys, objGet]
  | cons g rest ih =>
    obtain ⟨k0, xs⟩ := g
    show k ∈ k0 :: objKeys rest ↔ _
    rw [List.mem_cons]
    by_cases h0 : k0 = k
    · subst h0
      simp [objGet]
    · have h0' : ¬ k = k0 := fun hh => h0 hh.symm
      rw [show objGet ((k0, xs) :: rest) k = objGet rest k by simp [objGet, h0]]
      rw [← ih]
      simp [h0']

/-- One row extends the grouping by one push (or is skipped). -/
theorem groupByMac_append (data : List Reading) (r : Reading) :
    groupByMac (data ++ [r])
      = match rowKey r with
        | none => groupByMac data
        | some k => objPush (groupByMac data) k r := by
  unfold groupByMac
  rw [List.foldl_append]
  rfl

/-- The group stored under key k is exactly the subsequence of rows with that
row key, in input order. -/
theorem objGet_groupByMac (data : List Reading) (k : String) :
    objGet (groupByMac data) k
      = (if data.filter (fun r => rowKey r = some k) = [] then none
         else some (data.filter (fun r => rowKey r = some k))) := by
  induction data using List.reverseRecOn with
  | nil => simp [groupByMac, objGet]
  | append_singleton xs x ih =>
    rw [groupByMac_append, List.filter_append]
    cases hx : rowKey x with
    | none =>
      have hxf : (List.filter (fun r => rowKey r = some k) [x]) = [] := by
        simp [List.filter, hx]
      rw [hxf, List.append_nil, ih]
    | some kx =>
      by_cases hkk : k = kx
      · subst hkk
        have hxf : (List.filter (fun r => rowKey r = some k) [x]) = [x] := by
          simp [List.filter, hx]
        rw [hxf, objGet_objPush, if_pos rfl, ih]
        by_cases hnil : xs.filter (fun r => rowKey r = some k) = []
        · rw [if_pos hnil, hnil]
          simp
        · rw [if_neg hnil]
          simp
      · have hkx : kx ≠ k := fun hh => hkk hh.symm
        have hxf : (List.filter (fun r => rowKey r = some k) [x]) = [] := by
          simp [List.filter, hx, hkx]
        rw [hxf, List.append_nil, objGet_objPush, if_neg hkk, ih]

/-- The key list of the grouping has no duplicates. -/
theorem objKeys_groupByMac_nodup (data : List Reading) :
    (objKeys (groupByMac data)).Nodup := by
  induction data using List.reverseRecOn with
  | nil => simp [groupByMac, objKeys]
  | append_singleton xs x ih =>
    rw [groupByMac_append]
    cases hx : rowKey x with
    | none => exact ih
    | some kx =>
      rw [objKeys_objPush]
      by_cases hs : (objGet (groupByMac xs) kx).isSome
      · rw [if_pos hs]
        exact ih
      · rw [if_neg hs]
        rw [List.nodup_append]
        refine ⟨ih, List.nodup_singleton kx, ?_⟩
        intro a ha hb
        rw [List.mem_singleton] at hb
        subst hb
        exact hs ((mem_objKeys_iff_isSome (groupByMac xs) a).mp ha)

/-- A sum over an association list with distinct keys is a sum over its keys. -/
theorem sum_assoc_eq_sum_keys (gs : List (String × List Reading))
    (hnd : (objKeys gs).Nodup) (F : String → List Reading → ℚ) :
    ((gs.map (fun g => F g.1 g.2)).sum)
      = (((objKeys gs).map (fun k => F k ((objGet gs k).getD []))).sum) := by
  induction gs with
  | nil => rfl
  | cons g rest ih =>
    obtain ⟨k0, xs⟩ := g
    have hnd2 : (objKeys rest).Nodup := by
      rw [show objKeys ((k0, xs) :: rest) = k0 :: objKeys rest from rfl] at hnd
      exact hnd.of_cons
    have hk0 : k0 ∉ objKeys rest := by
      rw [show objKeys ((k0, xs) :: rest) = k0 :: objKeys rest from rfl] at hnd
      exact (List.nodup_cons.mp hnd).1
    rw [show objKeys ((k0, xs) :: rest) = k0 :: objKeys rest from rfl]
    rw [List.map_cons, List.map_cons, List.sum_cons, List.sum_cons]
    rw [show objGet ((k0, xs) :: rest) k0 = some xs by simp [objGet]]
    rw [ih hnd2]
    congr 1
    apply congrArg
    apply List.map_congr_left
    intro a ha
    have hne : ¬ k0 = a := fun hh => hk0 (hh ▸ ha)
    rw [show objGet ((k0, xs) :: rest) a = objGet rest a by simp [objGet, hne]]

/-- Rows with pairwise distinct timestamps per key sort identically in any
input order. -/
theorem sortByTime_eq_of_perm (g g' : List Reading) (hp : g.Perm g')
    (hd : g.Pairwise (fun a b => a.time ≠ b.time)) :
    sortByTime g = sortByTime g' := by
  have hps : (sortByTime g).Perm (sortByTime g') :=
    ((List.perm_insertionSort timeLE g).trans hp).trans
      (List.perm_insertionSort timeLE g').symm
  have hsymm : ∀ {x y : Reading}, x.time ≠ y.time → y.time ≠ x.time :=
    fun h => fun hh => h hh.symm
  have hd1 : (sortByTime g).Pairwise (fun a b => a.time ≠ b.time) :=
    (List.Perm.pairwise_iff hsymm (List.perm_insertionSort timeLE g)).mpr hd
  have hd2 : (sortByTime g').Pairwise (fun a b => a.time ≠ b.time) :=
    (List.Perm.pairwise_iff hsymm hps).mp hd1
  have hs1 : List.Sorted timeLE (sortByTime g) := List.sorted_insertionSort timeLE g
  have hs2 : List.Sorted timeLE (sortByTime g') := List.sorted_insertionSort timeLE g'
  have hlt1 : List.Sorted timeLT (sortByTime g) :=
    (hs1.and hd1).imp (fun h => lt_of_le_of_ne h.1 h.2)
  have hlt2 : List.Sorted timeLT (sortByTime g') :=
    (hs2.and hd2).imp (fun h => lt_of_le_of_ne h.1 h.2)
  exact List.eq_of_perm_of_sorted hps hlt1 hlt2

/-- A group contribution only depends on the sorted readings. -/
theorem groupContrib_sorted_congr (k : String) (m : List (String × String))
    (room : Option String) (g g' : List Reading) (h : sortByTime g = sortByTime g') :
    groupContrib k g m room = groupContrib k g' m room := by
  have hlen : g.length = g'.length := by
    have h1 := (List.perm_insertionSort timeLE g).length_eq
    have h2 := (List.perm_insertionSort timeLE g').length_eq
    rw [← h1, ← h2]
    show (sortByTime g).length = (sortByTime g').length
    rw [h]
  unfold groupContrib groupDelta
  rw [hlen, h]

/-- The filtered group of a key inherits pairwise-distinct timestamps. -/
theorem gather_pairwise_ne (data : List Reading) (k : String)
    (hdist : data.Pairwise (fun a b => rowKey a = rowKey b → a.time ≠ b.time)) :
    (data.filter (fun r => rowKey r = some k)).Pairwise (fun a b => a.time ≠ b.time) := by
  have hp : (data.filter (fun r => rowKey r = some k)).Pairwise
      (fun a b => rowKey a = rowKey b → a.time ≠ b.time) :=
    hdist.sublist (List.filter_sublist data)
  apply hp.imp_of_mem
  intro a b ha hb hR
  have hka : rowKey a = some k := by
    have := (List.mem_filter.mp ha).2
    simpa using this
  have hkb : rowKey b = some k := by
    have := (List.mem_filter.mp hb).2
    simpa using this
  exact hR (hka.trans hkb.symm)

/-- Permutation invariance of a keyed group sum, under pairwise-distinct
timestamps per device. -/
theorem sum_groupBy_perm (data data' : List Reading) (hperm : data.Perm data')
    (hdist : data.Pairwise (fun a b => rowKey a = rowKey b → a.time ≠ b.time))
    (F : String → List Reading → ℚ)
    (hF : ∀ k g g', sortByTime g = sortByTime g' → F k g = F k g') :
    ((groupByMac data).map (fun g => F g.1 g.2)).sum
      = ((groupByMac data').map (fun g => F g.1 g.2)).sum := by
  have hnd := objKeys_groupByMac_nodup data
  have hnd' := objKeys_groupByMac_nodup data'
  rw [sum_assoc_eq_sum_keys (groupByMac data) hnd F,
    sum_assoc_eq_sum_keys (groupByMac data') hnd' F]
  have hfilter : ∀ k, (data.filter (fun r => rowKey r = some k)).Perm
      (data'.filter (fun r => rowKey r = some k)) :=
    fun k => hperm.filter (fun r => rowKey r = some k)
  have hmem : ∀ k, k ∈ objKeys (groupByMac data) ↔ k ∈ objKeys (groupByMac data') := by
    intro k
    rw [mem_objKeys_iff_isSome, mem_objKeys_iff_isSome,
      objGet_groupByMac, objGet_groupByMac]
    by_cases h : data.filter (fun r => rowKey r = some k) = []
    · have h' : data'.filter (fun r => rowKey r = some k) = [] :=
        List.Perm.eq_nil ((hfilter k).symm.trans (h ▸ List.Perm.refl _))
      rw [if_pos h, if_pos h']
    · have h' : ¬ data'.filter (fun r => rowKey r = some k) = [] := by
        intro hh
        exact h (List.Perm.eq_nil ((hfilter k).trans (hh ▸ List.Perm.refl _)))
      rw [if_neg h, if_neg h']
      simp
  have hkeysperm : (objKeys (groupByMac data)).Perm (objKeys (groupByMac data')) :=
    (List.perm_ext_iff_of_nodup hnd hnd').mpr hmem
  have hpointwise : ∀ k ∈ objKeys (groupByMac data),
      F k ((objGet (groupByMac data) k).getD [])
        = F k ((objGet (groupByMac data') k).getD []) := by
    intro k hk
    have hne : ¬ data.filter (fun r => rowKey r = some k) = [] := by
      have := (mem_objKeys_iff_isSome (groupByMac data) k).mp hk
      rw [objGet_groupByMac] at this
      by_cases h : data.filter (fun r => rowKey r = some k) = []
      · rw [if_pos h] at this
        simp at this
      · exact h
    have hne' : ¬ data'.filter (fun r => rowKey r = some k) = [] := by
      intro hh
      exact hne (List.Perm.eq_nil ((hfilter k).trans (hh ▸ List.Perm.refl _)))
    rw [objGet_groupByMac, objGet_groupByMac, if_neg hne, if_neg hne']
    apply hF
    exact sortByTime_eq_of_perm _ _ (hfilter k) (gather_pairwise_ne data k hdist)
  calc ((objKeys (groupByMac data)).map
          (fun k => F k ((objGet (groupByMac data) k).getD []))).sum
      = ((objKeys (groupByMac data)).map
          (fun k => F k ((objGet (groupByMac data') k).getD []))).sum := by
        rw [List.map_congr_left hpointwise]
    _ = ((objKeys (groupByMac data')).map
          (fun k => F k ((objGet (groupByMac data') k).getD []))).sum :=
        (hkeysperm.map _).sum_eq

/-- One row extends the V2 grouping by one push. -/
theorem groupByMacV2_append (data : List Reading) (r : Reading) :
    groupByMacV2 (data ++ [r]) = objPush (groupByMacV2 data) r.mac r := by
  unfold groupByMacV2
  rw [List.foldl_append]
  rfl

/-- The V2 group stored under key k is exactly the subsequence of rows with
that raw `mac_address`, in input order. -/
theorem objGet_groupByMacV2 (data : List Reading) (k : String) :
    objGet (groupByMacV2 data) k
      = (if data.filter (fun r => r.mac = k) = [] then none
         else some (data.filter (fun r => r.mac = k))) := by
  induction data using List.reverseRecOn with
  | nil => simp [groupByMacV2, objGet]
  | append_singleton xs x ih =>
    rw [groupByMacV2_append, List.filter_append, objGet_objPush]
    by_cases hkk : k = x.mac
    · subst hkk
      have hxf : (List.filter (fun r => r.mac = x.mac) [x]) = [x] := by
        simp [List.filter]
      rw [if_pos rfl, hxf, ih]
      by_cases hnil : xs.filter (fun r => r.mac = x.mac) = []
      · rw [if_pos hnil, hnil]
        simp
      · rw [if_neg hnil]
        simp
    · have hkx : x.mac ≠ k := fun hh => hkk hh.symm
      have hxf : (List.filter (fun r => r.mac = k) [x]) = [] := by
        simp [List.filter, hkx]
      rw [if_neg hkk, hxf, List.append_nil, ih]

/-- The key list of the V2 grouping has no duplicates. -/
theorem objKeys_groupByMacV2_nodup (data : List Reading) :
    (objKeys (groupByMacV2 data)).Nodup := by
  induction data using List.reverseRecOn with
  | nil => simp [groupByMacV2, objKeys]
  | append_singleton xs x ih =>
    rw [groupByMacV2_append, objKeys_objPush]
    by_cases hs : (objGet (groupByMacV2 xs) x.mac).isSome
    · rw [if_pos hs]
      exact ih
    · rw [if_neg hs]
      rw [List.nodup_append]
      refine ⟨ih, List.nodup_singleton x.mac, ?_⟩
      intro a ha hb
      rw [List.mem_singleton] at hb
      subst hb
      exact hs ((mem_objKeys_iff_isSome (groupByMacV2 xs) x.mac).mp ha)

/-- A V2 group contribution only depends on the sorted readings. -/
theorem groupContribV2_sorted_congr (k : String) (m : List (String × String))
    (room : Option String) (g g' : List Reading) (h : sortByTime g = sortByTime g') :
    groupContribV2 k g m room = groupContribV2 k g' m room := by
  have hlen : g.length = g'.length := by
    have h1 := (List.perm_insertionSort timeLE g).length_eq
    have h2 := (List.perm_insertionSort timeLE g').length_eq
    rw [← h1, ← h2]
    show (sortByTime g).length = (sortByTime g').length
    rw [h]
  unfold groupContribV2 groupDelta
  rw [hlen, h]

/-- A raw-MAC group inherits pairwise-distinct timestamps. -/
theorem gather_pairwise_neV2 (data : List Reading) (k : String)
    (hdist : data.Pairwise (fun a b => a.mac = b.mac → a.time ≠ b.time)) :
    (data.filter (fun r => r.mac = k)).Pairwise (fun a b => a.time ≠ b.time) := by
  have hp : (data.filter (fun r => r.mac = k)).Pairwise
      (fun a b => a.mac = b.mac → a.time ≠ b.time) :=
    hdist.sublist (List.filter_sublist data)
  apply hp.imp_of_mem
  intro a b ha hb hR
  have hka : a.mac = k := by
    have := (List.mem_filter.mp ha).2
    simpa using this
  have hkb : b.mac = k := by
    have := (List.mem_filter.mp hb).2
    simpa using this
  exact hR (hka.trans hkb.symm)

/-- Permutation invariance of a raw-keyed V2 group sum, under
pairwise-distinct timestamps per raw MAC. -/
theorem sum_groupBy_permV2 (data data' : List Reading) (hperm : data.Perm data')
    (hdist : data.Pairwise (fun a b => a.mac = b.mac → a.time ≠ b.time))
    (F : String → List Reading → ℚ)
    (hF : ∀ k g g', sortByTime g = sortByTime g' → F k g = F k g') :
    ((groupByMacV2 data).map (fun g => F g.1 g.2)).sum
      = ((groupByMacV2 data').map (fun g => F g.1 g.2)).sum := by
  have hnd := objKeys_groupByMacV2_nodup data
  have hnd' := objKeys_groupByMacV2_nodup data'
  rw [sum_assoc_eq_sum_keys (groupByMacV2 data) hnd F,
    sum_assoc_eq_sum_keys (groupByMacV2 data') hnd' F]
  have hfilter : ∀ k, (data.filter (fun r => r.mac = k)).Perm
      (data'.filter (fun r => r.mac = k)) :=
    fun k => hperm.filter (fun r => r.mac = k)
  have hmem : ∀ k, k ∈ objKeys (groupByMacV2 data) ↔ k ∈ objKeys (groupByMacV2 data') := by
    intro k
    rw [mem_objKeys_iff_isSome, mem_objKeys_iff_isSome,
      objGet_groupByMacV2, objGet_groupByMacV2]
    by_cases h : data.filter (fun r => r.mac = k) = []
    · have h' : data'.filter (fun r => r.mac = k) = [] :=
        List.Perm.eq_nil ((hfilter k).symm.trans (h ▸ List.Perm.refl _))
      rw [if_pos h, if_pos h']
    · have h' : ¬ data'.filter (fun r => r.mac = k) = [] := by
        intro hh
        exact h (List.Perm.eq_nil ((hfilter k).trans (hh ▸ List.Perm.refl _)))
      rw [if_neg h, if_neg h']
      simp
  have hkeysperm : (objKeys (groupByMacV2 data)).Perm (objKeys (groupByMacV2 data')) :=
    (List.perm_ext_iff_of_nodup hnd hnd').mpr hmem
  have hpointwise : ∀ k ∈ objKeys (groupByMacV2 data),
      F k ((objGet (groupByMacV2 data) k).getD [])
        = F k ((objGet (groupByMacV2 data') k).getD []) := by
    intro k hk
    have hne : ¬ data.filter (fun r => r.mac = k) = [] := by
      have := (mem_objKeys_iff_isSome (groupByMacV2 data) k).mp hk
      rw [objGet_groupByMacV2] at this
      by_cases h : data.filter (fun r => r.mac = k) = []
      · rw [if_pos h] at this
        simp at this
      · exact h
    have hne' : ¬ data'.filter (fun r => r.mac = k) = [] := by
      intro hh
      exact hne (List.Perm.eq_nil ((hfilter k).trans (hh ▸ List.Perm.refl _)))
    rw [objGet_groupByMacV2, objGet_groupByMacV2, if_neg hne, if_neg hne']
    apply hF
    exact sortByTime_eq_of_perm _ _ (hfilter k) (gather_pairwise_neV2 data k hdist)
  calc ((objKeys (groupByMacV2 data)).map
          (fun k => F k ((objGet (groupByMacV2 data) k).getD []))).sum
      = ((objKeys (groupByMacV2 data)).map
          (fun k => F k ((objGet (groupByMacV2 data') k).getD []))).sum := by
        rw [List.map_congr_left hpointwise]
    _ = ((objKeys (groupByMacV2 data')).map
          (fun k => F k ((objGet (groupByMacV2 data') k).getD []))).sum :=
        (hkeysperm.map _).sum_eq

/-- Rows sharing a raw MAC share a normalized row key. -/
theorem pairwise_distinct_of_rowKey (data : List Reading)
    (hdist : data.Pairwise (fun a b => rowKey a = rowKey b → a.time ≠ b.time)) :
    data.Pairwise (fun a b => a.mac = b.mac → a.time ≠ b.time) := by
  apply hdist.imp
  intro a b h hmac
  apply h
  unfold rowKey
  rw [hmac]

/-- C10: with pairwise-distinct timestamps within each device group, the
per-bucket aggregation result is invariant under any permutation of the input
rows — grouping is order-insensitive and each group is re-sorted by timestamp
before the endpoints are taken — in the V1 aggregation (grouped by normalized
MAC, `part_000` lines 237-328) and in the V2 aggregation (grouped by raw
`mac_address`, `part_001` lines 646-693) alike. -/
theorem C10_permutation_invariance (data data' : List Reading)
    (m : List (String × String)) (room : Option String) (hperm : data.Perm data')
    (hdist : data.Pairwise (fun a b => rowKey a = rowKey b → a.time ≠ b.time)) :
    calculateEnergyFromInfluxData data m room
      = calculateEnergyFromInfluxData data' m room
    ∧ calculateEnergyFromInfluxDataV2 data m room
      = calculateEnergyFromInfluxDataV2 data' m room := by
  constructor
  · have hc : consumptionSum data m room = consumptionSum data' m room := by
      unfold consumptionSum
      exact sum_groupBy_perm data data' hperm hdist
        (fun k g => (groupContrib k g m room).1)
        (fun k g g' h => by
          show (groupContrib k g m room).1 = (groupContrib k g' m room).1
          rw [groupContrib_sorted_congr k m room g g' h])
    have hs : supplySum data m room = supplySum data' m room := by
      unfold supplySum
      exact sum_groupBy_perm data data' hperm hdist
        (fun k g => (groupContrib k g m room).2)
        (fun k g g' h => by
          show (groupContrib k g m room).2 = (groupContrib k g' m room).2
          rw [groupContrib_sorted_congr k m room g g' h])
    unfold calculateEnergyFromInfluxData
    rw [hc, hs]
  · have hdistV2 := pairwise_distinct_of_rowKey data hdist
    have hc : consumptionSumV2 data m room = consumptionSumV2 data' m room := by
      unfold consumptionSumV2
      exact sum_groupBy_permV2 data data' hperm hdistV2
        (fun k g => (groupContribV2 k g m room).1)
        (fun k g g' h => by
          show (groupContribV2 k g m room).1 = (groupContribV2 k g' m room).1
          rw [groupContribV2_sorted_congr k m room g g' h])
    have hs : supplySumV2 data m room = supplySumV2 data' m room := by
      unfold supplySumV2
      exact sum_groupBy_permV2 data data' hperm hdistV2
        (fun k g => (groupContribV2 k g m room).2)
        (fun k g g' h => by
          show (groupContribV2 k g m room).2 = (groupContribV2 k g' m room).2
          rw [groupContribV2_sorted_congr k m room g g' h])
    unfold calculateEnergyFromInfluxDataV2
    rw [hc, hs]

/-- C10 witness: reversing two concrete rows leaves the result of both
aggregation variants unchanged. -/
theorem C10_witness :
    calculateEnergyFromInfluxData [⟨"aa", 100, 1⟩, ⟨"aa", 150, 2⟩] [("aa", "1")] none
      = calculateEnergyFromInfluxData [⟨"aa", 150, 2⟩, ⟨"aa", 100, 1⟩] [("aa", "1")] none
    ∧ calculateEnergyFromInfluxDataV2 [⟨"aa", 100, 1⟩, ⟨"aa", 150, 2⟩] [("aa", "1")] none
      = calculateEnergyFromInfluxDataV2 [⟨"aa", 150, 2⟩, ⟨"aa", 100, 1⟩] [("aa", "1")] none :=
  C10_permutation_invariance [⟨"aa", 100, 1⟩, ⟨"aa", 150, 2⟩]
    [⟨"aa", 150, 2⟩, ⟨"aa", 100, 1⟩] [("aa", "1")] none
    (List.Perm.swap _ _ _) (by decide)

end EV
